import Mathlib

/-!
# CustomTextRenderer (src/renderer/dx/CustomTextRenderer.cpp)

A shallow embedding of the DirectWrite text-renderer callback object and a
verification development over it.

* COM calls made on the rendering surface are recorded as a list of `Cmd`
  values, in the order in which the code issues them.
* Results of calls into external collaborators (capability queries, colour
  decomposition, the colour glyph-run enumerator, brush creation) are supplied
  by an `Env` value, so every theorem quantifies over every behaviour of the
  collaborators.
* `FLOAT` arithmetic is kept abstract: the code is generic in a scalar type `F`
  that only has to provide the operations the code performs (addition, and
  division for the scale factor).  `F32` is the IEEE-754 binary32 instance
  (round to nearest, ties to even).
* `ULONG` and `HRESULT` are 32-bit machine integers.
-/

set_option autoImplicit false

namespace Terminal

/-! ## Machine integers -/

/-- Number of values of a 32-bit machine word (`ULONG`, `LONG`, `HRESULT`). -/
def WORD32 : Nat := 2 ^ 32

/-- `HRESULT` is a signed 32-bit status code, kept as its signed value. -/
abbrev HRESULT := Int

def S_OK : HRESULT := 0

/-- `E_NOINTERFACE` is `0x80004002` read as a signed 32-bit value. -/
def E_NOINTERFACE : HRESULT := 0x80004002 - 2 ^ 32

/-- `DWRITE_E_NOCOLOR` is `0x8898500C` read as a signed 32-bit value. -/
def DWRITE_E_NOCOLOR : HRESULT := 0x8898500C - 2 ^ 32

/-- The `FAILED(hr)` test used by `RETURN_IF_FAILED`: the sign bit is set. -/
def FAILED (hr : HRESULT) : Bool := decide (hr < 0)

/-- Conversion `ULONG -> LONG` (same 32 bits, read as two's complement). -/
def toLONG (u : Nat) : Int :=
  if u % WORD32 < 2 ^ 31 then ((u % WORD32 : Nat) : Int) else ((u % WORD32 : Nat) : Int) - 2 ^ 32

/-- Conversion `LONG -> ULONG` (same 32 bits, read as unsigned). -/
def toULONG (i : Int) : Nat := (i % 2 ^ 32).toNat

/-! ## IEEE-754 binary32 -/

/-- A binary32 value.  `finite s m` is the number `(-1)^s * m * 2^(-149)`: every
finite binary32 number is an integer multiple of the least subnormal `2^(-149)`.
The sign of a zero is kept; NaN payloads are not distinguished. -/
inductive F32 where
  | finite (negative : Bool) (magnitude : Nat)
  | infinity (negative : Bool)
  | nan
  deriving DecidableEq, Repr

namespace F32

/-- Number of halvings that bring `a` below `2^24`; `fuel` bounds the search. -/
def excessBitsAux : Nat → Nat → Nat
  | 0, _ => 0
  | fuel + 1, a => if a < 2 ^ 24 then 0 else excessBitsAux fuel (a / 2) + 1

/-- Number of low-order bits of `a` that do not fit a 24-bit significand. -/
def excessBits (a : Nat) : Nat := excessBitsAux a a

/-- Round a magnitude to 24 significant bits, to nearest, ties to even. -/
def roundMagnitude (a : Nat) : Nat :=
  let e := excessBits a
  let q := a / 2 ^ e
  let r := a % 2 ^ e
  let q1 := if 2 ^ e < 2 * r ∨ (2 * r = 2 ^ e ∧ q % 2 = 1) then q + 1 else q
  q1 * 2 ^ e

/-- The binary32 value nearest to the exact value `i * 2^(-149)`; `zeroSign` is
the sign given to an exact zero.  Magnitudes from `2^128` on overflow. -/
def ofInt (zeroSign : Bool) (i : Int) : F32 :=
  if i = 0 then finite zeroSign 0
  else
    let m := roundMagnitude i.natAbs
    if 2 ^ 128 * 2 ^ 149 ≤ m then infinity (decide (i < 0)) else finite (decide (i < 0)) m

/-- Exact value of a finite number, in units of `2^(-149)`. -/
def signed (negative : Bool) (magnitude : Nat) : Int :=
  if negative then -(magnitude : Int) else (magnitude : Int)

/-- Binary32 addition. -/
def add : F32 → F32 → F32
  | nan, _ => nan
  | _, nan => nan
  | infinity s, infinity t => if s = t then infinity s else nan
  | infinity s, finite _ _ => infinity s
  | finite _ _, infinity t => infinity t
  | finite s a, finite t b => ofInt (s && t) (signed s a + signed t b)

/-- Binary32 negation (flips the sign bit). -/
def neg : F32 → F32
  | nan => nan
  | infinity s => infinity (!s)
  | finite s a => finite (!s) a

/-- The binary32 value of a natural number (rounded when it needs more than 24 bits). -/
def ofNat (n : Nat) : F32 := ofInt false ((n : Int) * 2 ^ 149)

/-- Round the quotient `num / den` (`den` positive) to 24 significant bits, to
nearest, ties to even; the result is a whole number of units. -/
def roundQuotient (num den : Nat) : Nat :=
  let e := excessBits (num / den)
  let d := den * 2 ^ e
  let q := num / d
  let r := num % d
  let q1 := if d < 2 * r ∨ (2 * r = d ∧ q % 2 = 1) then q + 1 else q
  q1 * 2 ^ e

/-- Binary32 division.  The exact quotient of `a * 2^(-149)` by `b * 2^(-149)` is
`(a * 2^149 / b) * 2^(-149)`. -/
def div : F32 → F32 → F32
  | nan, _ => nan
  | _, nan => nan
  | infinity _, infinity _ => nan
  | infinity s, finite t _ => infinity (s != t)
  | finite s _, infinity t => finite (s != t) 0
  | finite s a, finite t b =>
    if b = 0 then (if a = 0 then nan else infinity (s != t))
    else
      let m := roundQuotient (a * 2 ^ 149) b
      if 2 ^ 128 * 2 ^ 149 ≤ m then infinity (s != t) else finite (s != t) m

instance : Add F32 := ⟨add⟩
instance : Div F32 := ⟨div⟩
instance : NatCast F32 := ⟨ofNat⟩
instance : Neg F32 := ⟨neg⟩
instance : Sub F32 := ⟨fun a b => add a (neg b)⟩

end F32

/-! ## Reference counting and interface negotiation -/

/-- The renderer object.  Its only data member is the counter `m_refCount`,
declared in `CustomTextRenderer.h`; it is taken to have the type `ULONG` in
which `AddRef` and `Release` return it, so it is always below `2^32` and its
increments and decrements wrap. -/
structure CustomTextRenderer where
  m_refCount : Nat
  deriving DecidableEq, Repr

namespace CustomTextRenderer

/-- The constructor: `m_refCount(0)`. -/
def new : CustomTextRenderer := ⟨0⟩

/-- `AddRef`: `m_refCount++; return m_refCount;`.  Returns the value handed
back to the caller and the updated object. -/
def AddRef (self : CustomTextRenderer) : Nat × CustomTextRenderer :=
  let count := (self.m_refCount + 1) % WORD32
  (count, ⟨count⟩)

/-- `Release`: `m_refCount--; LONG newCount = m_refCount; if (m_refCount == 0)
delete this; return newCount;`.  The second component is `none` once the object
has been deleted. -/
def Release (self : CustomTextRenderer) : Nat × Option CustomTextRenderer :=
  let count := (self.m_refCount + WORD32 - 1) % WORD32
  let newCount := toLONG count
  if count = 0 then (toULONG newCount, none) else (toULONG newCount, some ⟨count⟩)

/-- A 128-bit interface identifier (`IID`). -/
abbrev GUID := Nat

/-- The three identifiers `QueryInterface` compares against.  Their values come
from the platform headers, so they are parameters of the model. -/
structure InterfaceIds where
  IDWriteTextRenderer : GUID
  IDWritePixelSnapping : GUID
  IUnknown : GUID
  deriving DecidableEq, Repr

/-- A non-null interface pointer written to `*ppOutput`: always `this`, cast to
the interface named by the constructor. -/
inductive InterfacePtr where
  | asIDWriteTextRenderer
  | asIDWritePixelSnapping
  | asIUnknown
  deriving DecidableEq, Repr

/-- `QueryInterface`.  Returns the status, the final value of `*ppOutput`
(`none` is `nullptr`) and the updated object. -/
def QueryInterface (iids : InterfaceIds) (self : CustomTextRenderer) (riid : GUID) :
    HRESULT × Option InterfacePtr × CustomTextRenderer :=
  if riid = iids.IDWriteTextRenderer then
    (S_OK, some InterfacePtr.asIDWriteTextRenderer, (AddRef self).2)
  else if riid = iids.IDWritePixelSnapping then
    (S_OK, some InterfacePtr.asIDWritePixelSnapping, (AddRef self).2)
  else if riid = iids.IUnknown then
    (S_OK, some InterfacePtr.asIUnknown, (AddRef self).2)
  else
    (E_NOINTERFACE, none, self)

/-- The object after `n` consecutive `AddRef` calls. -/
def addRefs : Nat → CustomTextRenderer → CustomTextRenderer
  | 0, self => self
  | n + 1, self => addRefs n (AddRef self).2

/-- The object after `k` consecutive `Release` calls; `none` when one of them
deleted it (no call is made on a deleted object). -/
def releases : Nat → CustomTextRenderer → Option CustomTextRenderer
  | 0, self => some self
  | k + 1, self => (Release self).2.bind (releases k)

end CustomTextRenderer

/-! ## Drawing data -/

structure D2D1_POINT_2F (F : Type) where
  x : F
  y : F
  deriving DecidableEq, Repr

/-- A rectangle, with the field order of `D2D1::RectF(left, top, right, bottom)`. -/
structure D2D1_RECT_F (F : Type) where
  left : F
  top : F
  right : F
  bottom : F
  deriving DecidableEq, Repr

structure D2D1_COLOR_F (F : Type) where
  r : F
  g : F
  b : F
  a : F
  deriving DecidableEq, Repr

inductive DWRITE_MEASURING_MODE where
  | NATURAL
  | GDI_CLASSIC
  | GDI_NATURAL
  deriving DecidableEq, Repr

/-- A glyph run.  `glyphCount` is the length of `glyphAdvances`. -/
structure DWRITE_GLYPH_RUN (F : Type) where
  fontFace : Nat
  fontEmSize : F
  glyphIndices : List Nat
  glyphAdvances : List F
  isSideways : Bool
  bidiLevel : Nat
  deriving DecidableEq, Repr

/-- A pointer to a `DWRITE_GLYPH_RUN_DESCRIPTION` (`none` is `nullptr`). -/
abbrev GlyphRunDescriptionPtr := Option Nat

/-- One colour sub-run, as returned by `GetCurrentRun`. -/
structure DWRITE_COLOR_GLYPH_RUN1 (F : Type) where
  glyphRun : DWRITE_GLYPH_RUN F
  glyphRunDescription : GlyphRunDescriptionPtr
  baselineOriginX : F
  baselineOriginY : F
  runColor : D2D1_COLOR_F F
  paletteIndex : Nat
  glyphImageFormat : Nat
  measuringMode : DWRITE_MEASURING_MODE
  deriving DecidableEq, Repr

def DWRITE_GLYPH_IMAGE_FORMATS_TRUETYPE : Nat := 0x1
def DWRITE_GLYPH_IMAGE_FORMATS_CFF : Nat := 0x2
def DWRITE_GLYPH_IMAGE_FORMATS_COLR : Nat := 0x4
def DWRITE_GLYPH_IMAGE_FORMATS_SVG : Nat := 0x8
def DWRITE_GLYPH_IMAGE_FORMATS_PNG : Nat := 0x10
def DWRITE_GLYPH_IMAGE_FORMATS_JPEG : Nat := 0x20
def DWRITE_GLYPH_IMAGE_FORMATS_TIFF : Nat := 0x40
def DWRITE_GLYPH_IMAGE_FORMATS_PREMULTIPLIED_B8G8R8A8 : Nat := 0x80

def D2D1_DRAW_TEXT_OPTIONS_ENABLE_COLOR_FONT : Nat := 0x4

/-- `WI_IsFlagSet(val, flag)`: `(val & flag) == flag`. -/
def WI_IsFlagSet (val flag : Nat) : Bool := (val &&& flag) == flag

/-- A brush passed to a drawing call: either a brush that exists outside the
call (a context brush or a client drawing effect, named by its pointer), or the
local `tempBrush` that `DrawGlyphRun` creates. -/
inductive Brush where
  | ptr (p : Nat)
  | tempBrush
  deriving DecidableEq, Repr

/-- The calls issued on the rendering surface and on `tempBrush`. -/
inductive Cmd (F : Type) where
  | FillRectangle (rect : D2D1_RECT_F F) (brush : Brush)
  | DrawGlyphRun (baselineOrigin : D2D1_POINT_2F F) (glyphRun : DWRITE_GLYPH_RUN F)
      (glyphRunDescription : GlyphRunDescriptionPtr) (foregroundBrush : Brush)
      (measuringMode : DWRITE_MEASURING_MODE)
  | DrawColorBitmapGlyphRun (glyphImageFormat : Nat) (baselineOrigin : D2D1_POINT_2F F)
      (glyphRun : DWRITE_GLYPH_RUN F) (measuringMode : DWRITE_MEASURING_MODE)
  | DrawSvgGlyphRun (baselineOrigin : D2D1_POINT_2F F) (glyphRun : DWRITE_GLYPH_RUN F)
      (defaultFillBrush : Brush) (svgGlyphStyle : Option Nat) (colorPaletteIndex : Nat)
      (measuringMode : DWRITE_MEASURING_MODE)
  | CreateSolidColorBrush (color : D2D1_COLOR_F F)
  | SetColor (color : D2D1_COLOR_F F)
  deriving DecidableEq, Repr

structure Spacing (F : Type) where
  baseline : F
  deriving DecidableEq, Repr

structure D2D1_SIZE_F (F : Type) where
  width : F
  height : F
  deriving DecidableEq, Repr

/-- The part of `DrawingContext` the renderer reads.  Brushes are pointers. -/
structure DrawingContext (F : Type) where
  foregroundBrush : Nat
  backgroundBrush : Nat
  spacing : Spacing F
  cellSize : D2D1_SIZE_F F
  options : Nat
  deriving DecidableEq, Repr

/-- Outcome of one round of the enumerator: the status and `haveRun` flag of
`MoveNext`, then the status and run of `GetCurrentRun`. -/
structure EnumStep (F : Type) where
  moveNext : HRESULT
  haveRun : Bool
  getCurrentRun : HRESULT
  colorRun : DWRITE_COLOR_GLYPH_RUN1 F
  deriving DecidableEq, Repr

/-- A colour glyph-run enumerator: the outcomes of its successive rounds.  Once
they are used up `MoveNext` succeeds with `haveRun = FALSE`. -/
abbrev Enumerator (F : Type) := List (EnumStep F)

/-- Behaviour of the external collaborators during one `DrawGlyphRun` call. -/
structure Env (F : Type) where
  renderTargetQueryInterface : HRESULT
  dwriteFactoryQueryInterface : HRESULT
  TranslateColorGlyphRun : D2D1_POINT_2F F → DWRITE_GLYPH_RUN F → GlyphRunDescriptionPtr →
    Nat → DWRITE_MEASURING_MODE → HRESULT × Enumerator F
  CreateSolidColorBrush : D2D1_COLOR_F F → HRESULT

/-- Status returned by a call together with the commands it issued. -/
structure DrawResult (F : Type) where
  hr : HRESULT
  cmds : List (Cmd F)
  deriving DecidableEq, Repr

namespace CustomTextRenderer

variable {F : Type} [Add F]

/-! ## Pixel snapping -/

/-- What the render target of a drawing context reports through `GetDpi`. -/
structure RenderTargetDpi (F : Type) where
  dpiX : F
  dpiY : F
  deriving DecidableEq, Repr

/-- `USER_DEFAULT_SCREEN_DPI`, the platform macro for the standard DPI, 96. -/
def USER_DEFAULT_SCREEN_DPI : Nat := 96

/-- `GetPixelsPerDip`: `GetDpi(&dpiX, &dpiY); *pixelsPerDip = dpiX /
USER_DEFAULT_SCREEN_DPI; return S_OK;`.  The integer macro is converted to
`FLOAT` and the division is a `FLOAT` division.  Returns the status and the
value written to `*pixelsPerDip`. -/
def GetPixelsPerDip {F : Type} [Div F] [NatCast F] (renderTarget : RenderTargetDpi F) :
    HRESULT × F :=
  (S_OK, renderTarget.dpiX / (USER_DEFAULT_SCREEN_DPI : F))

/-! ## Decorations -/

/-- `_FillRectangle`: fills `RectF(x, y, x + width, y + thickness)` with the
client drawing effect when it is not null, else with the foreground brush.  The
two direction arguments are unnamed in the source and unused. -/
def _FillRectangle (drawingContext : DrawingContext F) (clientDrawingEffect : Option Nat)
    (x y width thickness : F) (_readingDirection _flowDirection : Nat) : List (Cmd F) :=
  let brush :=
    match clientDrawingEffect with
    | some effect => Brush.ptr effect
    | none => Brush.ptr drawingContext.foregroundBrush
  let rect : D2D1_RECT_F F := ⟨x, y, x + width, y + thickness⟩
  [Cmd.FillRectangle rect brush]

/-- `DWRITE_UNDERLINE` / `DWRITE_STRIKETHROUGH`: the fields the renderer reads. -/
structure Decoration (F : Type) where
  width : F
  thickness : F
  offset : F
  readingDirection : Nat
  flowDirection : Nat
  deriving DecidableEq, Repr

/-- `DrawUnderline`. -/
def DrawUnderline (clientDrawingContext : DrawingContext F) (baselineOriginX baselineOriginY : F)
    (underline : Decoration F) (clientDrawingEffect : Option Nat) : DrawResult F :=
  ⟨S_OK, _FillRectangle clientDrawingContext clientDrawingEffect baselineOriginX
    (baselineOriginY + underline.offset) underline.width underline.thickness
    underline.readingDirection underline.flowDirection⟩

/-- `DrawStrikethrough`. -/
def DrawStrikethrough (clientDrawingContext : DrawingContext F)
    (baselineOriginX baselineOriginY : F) (strikethrough : Decoration F)
    (clientDrawingEffect : Option Nat) : DrawResult F :=
  ⟨S_OK, _FillRectangle clientDrawingContext clientDrawingEffect baselineOriginX
    (baselineOriginY + strikethrough.offset) strikethrough.width strikethrough.thickness
    strikethrough.readingDirection strikethrough.flowDirection⟩

/-! ## Glyph runs -/

/-- The formats passed to `TranslateColorGlyphRun` (the bitwise or of the eight
format flags). -/
def supportedFormats : Nat :=
  DWRITE_GLYPH_IMAGE_FORMATS_TRUETYPE ||| DWRITE_GLYPH_IMAGE_FORMATS_CFF |||
  DWRITE_GLYPH_IMAGE_FORMATS_COLR ||| DWRITE_GLYPH_IMAGE_FORMATS_SVG |||
  DWRITE_GLYPH_IMAGE_FORMATS_PNG ||| DWRITE_GLYPH_IMAGE_FORMATS_JPEG |||
  DWRITE_GLYPH_IMAGE_FORMATS_TIFF ||| DWRITE_GLYPH_IMAGE_FORMATS_PREMULTIPLIED_B8G8R8A8

/-- The background rectangle: `top = origin.y`, `bottom = top + cellSize.height`,
`left = origin.x`, and `right` starts at `left` and has every glyph advance added
to it in run order (the `for` loop over `glyphCount`). -/
def backgroundRect (drawingContext : DrawingContext F) (originX originY : F)
    (glyphRun : DWRITE_GLYPH_RUN F) : D2D1_RECT_F F :=
  { top := originY
    bottom := originY + drawingContext.cellSize.height
    left := originX
    right := glyphRun.glyphAdvances.foldl (fun right advance => right + advance) originX }

/-- The body of the sub-run loop after `GetCurrentRun` succeeded: the `switch`
on `glyphImageFormat`.  `tempBrush` is the colour of the local solid-colour
brush, `none` while the `ComPtr` is still null.  The result is the commands
issued and either the status the function returns with (`Except.error`) or the
state of `tempBrush` for the next round. -/
def drawColorRun (env : Env F) (drawingContext : DrawingContext F)
    (measuringMode : DWRITE_MEASURING_MODE) (tempBrush : Option (D2D1_COLOR_F F))
    (colorRun : DWRITE_COLOR_GLYPH_RUN1 F) :
    List (Cmd F) × Except HRESULT (Option (D2D1_COLOR_F F)) :=
  let currentBaselineOrigin : D2D1_POINT_2F F :=
    ⟨colorRun.baselineOriginX, colorRun.baselineOriginY⟩
  if colorRun.glyphImageFormat = DWRITE_GLYPH_IMAGE_FORMATS_PNG ∨
      colorRun.glyphImageFormat = DWRITE_GLYPH_IMAGE_FORMATS_JPEG ∨
      colorRun.glyphImageFormat = DWRITE_GLYPH_IMAGE_FORMATS_TIFF ∨
      colorRun.glyphImageFormat = DWRITE_GLYPH_IMAGE_FORMATS_PREMULTIPLIED_B8G8R8A8 then
    ([Cmd.DrawColorBitmapGlyphRun colorRun.glyphImageFormat currentBaselineOrigin
        colorRun.glyphRun measuringMode], Except.ok tempBrush)
  else if colorRun.glyphImageFormat = DWRITE_GLYPH_IMAGE_FORMATS_SVG then
    ([Cmd.DrawSvgGlyphRun currentBaselineOrigin colorRun.glyphRun
        (Brush.ptr drawingContext.foregroundBrush) none 0 measuringMode], Except.ok tempBrush)
  else if colorRun.paletteIndex = 0xFFFF then
    ([Cmd.DrawGlyphRun currentBaselineOrigin colorRun.glyphRun colorRun.glyphRunDescription
        (Brush.ptr drawingContext.foregroundBrush) measuringMode], Except.ok tempBrush)
  else
    match tempBrush with
    | none =>
      if FAILED (env.CreateSolidColorBrush colorRun.runColor) then
        ([Cmd.CreateSolidColorBrush colorRun.runColor],
          Except.error (env.CreateSolidColorBrush colorRun.runColor))
      else
        ([Cmd.CreateSolidColorBrush colorRun.runColor,
          Cmd.DrawGlyphRun currentBaselineOrigin colorRun.glyphRun colorRun.glyphRunDescription
            Brush.tempBrush measuringMode], Except.ok (some colorRun.runColor))
    | some _ =>
      ([Cmd.SetColor colorRun.runColor,
        Cmd.DrawGlyphRun currentBaselineOrigin colorRun.glyphRun colorRun.glyphRunDescription
          Brush.tempBrush measuringMode], Except.ok (some colorRun.runColor))

/-- The `for (;;)` loop over the enumerator.  Returns the status `DrawGlyphRun`
returns with (`S_OK` after the `break`) and the commands issued. -/
def drawColorRuns (env : Env F) (drawingContext : DrawingContext F)
    (measuringMode : DWRITE_MEASURING_MODE) :
    Enumerator F → Option (D2D1_COLOR_F F) → DrawResult F
  | [], _ => ⟨S_OK, []⟩
  | step :: rest, tempBrush =>
    if FAILED step.moveNext then ⟨step.moveNext, []⟩
    else if !step.haveRun then ⟨S_OK, []⟩
    else if FAILED step.getCurrentRun then ⟨step.getCurrentRun, []⟩
    else
      match drawColorRun env drawingContext measuringMode tempBrush step.colorRun with
      | (cmds, Except.error hr) => ⟨hr, cmds⟩
      | (cmds, Except.ok tempBrush1) =>
        let later := drawColorRuns env drawingContext measuringMode rest tempBrush1
        ⟨later.hr, cmds ++ later.cmds⟩

/-- `DrawGlyphRun`.  The client drawing effect is unnamed in the source and
unused. -/
def DrawGlyphRun (env : Env F) (clientDrawingContext : DrawingContext F)
    (baselineOriginX baselineOriginY : F) (measuringMode : DWRITE_MEASURING_MODE)
    (glyphRun : DWRITE_GLYPH_RUN F) (glyphRunDescription : GlyphRunDescriptionPtr) :
    DrawResult F :=
  let baselineOrigin : D2D1_POINT_2F F :=
    ⟨baselineOriginX, baselineOriginY + clientDrawingContext.spacing.baseline⟩
  if FAILED env.renderTargetQueryInterface then ⟨env.renderTargetQueryInterface, []⟩
  else
    let background := Cmd.FillRectangle
      (backgroundRect clientDrawingContext baselineOriginX baselineOriginY glyphRun)
      (Brush.ptr clientDrawingContext.backgroundBrush)
    if WI_IsFlagSet clientDrawingContext.options D2D1_DRAW_TEXT_OPTIONS_ENABLE_COLOR_FONT then
      if FAILED env.dwriteFactoryQueryInterface then
        ⟨env.dwriteFactoryQueryInterface, [background]⟩
      else
        let translated := env.TranslateColorGlyphRun baselineOrigin glyphRun glyphRunDescription
          supportedFormats measuringMode
        if translated.1 = DWRITE_E_NOCOLOR then
          ⟨S_OK, [background,
            Cmd.DrawGlyphRun baselineOrigin glyphRun glyphRunDescription
              (Brush.ptr clientDrawingContext.foregroundBrush) measuringMode]⟩
        else if FAILED translated.1 then ⟨translated.1, [background]⟩
        else
          let drawn := drawColorRuns env clientDrawingContext measuringMode translated.2 none
          ⟨drawn.hr, background :: drawn.cmds⟩
    else
      ⟨S_OK, [background,
        Cmd.DrawGlyphRun baselineOrigin glyphRun glyphRunDescription
          (Brush.ptr clientDrawingContext.foregroundBrush) measuringMode]⟩

end CustomTextRenderer

/-! ## Vocabulary of the properties -/

/-- The identifier is one of the three `QueryInterface` answers to. -/
def CustomTextRenderer.supportedRole (iids : CustomTextRenderer.InterfaceIds)
    (riid : CustomTextRenderer.GUID) : Prop :=
  riid = iids.IDWriteTextRenderer ∨ riid = iids.IDWritePixelSnapping ∨ riid = iids.IUnknown

namespace Cmd

variable {F : Type}

/-- A rectangle fill. -/
def isFill : Cmd F → Bool
  | FillRectangle _ _ => true
  | _ => false

/-- A command that paints glyphs: a plain, bitmap or SVG glyph-run draw. -/
def isGlyphPaint : Cmd F → Bool
  | DrawGlyphRun _ _ _ _ _ => true
  | DrawColorBitmapGlyphRun _ _ _ _ => true
  | DrawSvgGlyphRun _ _ _ _ _ _ => true
  | _ => false

/-- A solid-colour brush creation. -/
def isCreateBrush : Cmd F → Bool
  | CreateSolidColorBrush _ => true
  | _ => false

/-- A recolouring of the solid-colour brush. -/
def isSetColor : Cmd F → Bool
  | SetColor _ => true
  | _ => false

end Cmd

/-- The sub-run has one of the four raster formats. -/
def isBitmapRun {F : Type} (colorRun : DWRITE_COLOR_GLYPH_RUN1 F) : Bool :=
  colorRun.glyphImageFormat == DWRITE_GLYPH_IMAGE_FORMATS_PNG ||
  colorRun.glyphImageFormat == DWRITE_GLYPH_IMAGE_FORMATS_JPEG ||
  colorRun.glyphImageFormat == DWRITE_GLYPH_IMAGE_FORMATS_TIFF ||
  colorRun.glyphImageFormat == DWRITE_GLYPH_IMAGE_FORMATS_PREMULTIPLIED_B8G8R8A8

/-- The sub-run has the SVG format. -/
def isSvgRun {F : Type} (colorRun : DWRITE_COLOR_GLYPH_RUN1 F) : Bool :=
  colorRun.glyphImageFormat == DWRITE_GLYPH_IMAGE_FORMATS_SVG

/-- The sub-run is handled by the outline / layered (`default:`) branch: its
format is neither a raster format nor SVG. -/
def isOutlineRun {F : Type} (colorRun : DWRITE_COLOR_GLYPH_RUN1 F) : Bool :=
  !isBitmapRun colorRun && !isSvgRun colorRun

/-- An outline-branch sub-run with an explicit colour (palette index other than
`0xFFFF`): the sub-runs that need the solid-colour brush. -/
def needsTempBrush {F : Type} (colorRun : DWRITE_COLOR_GLYPH_RUN1 F) : Bool :=
  isOutlineRun colorRun && colorRun.paletteIndex != 0xFFFF

/-- The glyph-paint command the specification gives a sub-run: a bitmap draw for
a raster format, an SVG draw with the foreground brush, no style and palette
index 0 for SVG, and a plain draw otherwise, with the foreground brush for
palette index `0xFFFF` and the solid-colour brush for any other; always at the
sub-run's own baseline origin and with the caller's measuring mode. -/
def specPaint {F : Type} (drawingContext : DrawingContext F)
    (measuringMode : DWRITE_MEASURING_MODE) (colorRun : DWRITE_COLOR_GLYPH_RUN1 F) : Cmd F :=
  if isBitmapRun colorRun then
    Cmd.DrawColorBitmapGlyphRun colorRun.glyphImageFormat
      ⟨colorRun.baselineOriginX, colorRun.baselineOriginY⟩ colorRun.glyphRun measuringMode
  else if isSvgRun colorRun then
    Cmd.DrawSvgGlyphRun ⟨colorRun.baselineOriginX, colorRun.baselineOriginY⟩ colorRun.glyphRun
      (Brush.ptr drawingContext.foregroundBrush) none 0 measuringMode
  else
    Cmd.DrawGlyphRun ⟨colorRun.baselineOriginX, colorRun.baselineOriginY⟩ colorRun.glyphRun
      colorRun.glyphRunDescription
      (if colorRun.paletteIndex = 0xFFFF then Brush.ptr drawingContext.foregroundBrush
        else Brush.tempBrush)
      measuringMode

/-- The commands the specification gives a sub-run: its paint command, preceded
for a sub-run that needs the solid-colour brush by the creation of that brush
when it does not exist yet and by its recolouring when it does. -/
def specRunCmds {F : Type} (drawingContext : DrawingContext F)
    (measuringMode : DWRITE_MEASURING_MODE) (brushExists : Bool)
    (colorRun : DWRITE_COLOR_GLYPH_RUN1 F) : List (Cmd F) :=
  if needsTempBrush colorRun then
    [if brushExists then Cmd.SetColor colorRun.runColor
      else Cmd.CreateSolidColorBrush colorRun.runColor,
     specPaint drawingContext measuringMode colorRun]
  else [specPaint drawingContext measuringMode colorRun]

/-- The commands the specification gives a sequence of sub-runs, in order;
`brushExists` tells whether the solid-colour brush exists before the first. -/
def specLoopCmds {F : Type} (drawingContext : DrawingContext F)
    (measuringMode : DWRITE_MEASURING_MODE) :
    Bool → List (DWRITE_COLOR_GLYPH_RUN1 F) → List (Cmd F)
  | _, [] => []
  | brushExists, colorRun :: rest =>
    specRunCmds drawingContext measuringMode brushExists colorRun ++
      specLoopCmds drawingContext measuringMode (brushExists || needsTempBrush colorRun) rest

/-- State of `tempBrush` after the given sub-runs were drawn: the colour of the
last one that needed the brush, if any. -/
def brushAfter {F : Type} (tempBrush : Option (D2D1_COLOR_F F)) :
    List (DWRITE_COLOR_GLYPH_RUN1 F) → Option (D2D1_COLOR_F F)
  | [] => tempBrush
  | colorRun :: rest =>
    brushAfter (if needsTempBrush colorRun then some colorRun.runColor else tempBrush) rest

/-- The colour of the solid-colour brush after the given commands, `none` while
no brush exists: `CreateSolidColorBrush` makes a brush of the given colour,
`SetColor` recolours the brush if there is one, no other command touches it. -/
def brushColorAfter {F : Type} : Option (D2D1_COLOR_F F) → List (Cmd F) →
    Option (D2D1_COLOR_F F)
  | brush, [] => brush
  | _, Cmd.CreateSolidColorBrush color :: rest => brushColorAfter (some color) rest
  | brush, Cmd.SetColor color :: rest =>
    brushColorAfter (brush.map (fun _ => color)) rest
  | brush, _ :: rest => brushColorAfter brush rest

/-- Every round of the enumerator succeeds and yields a run. -/
@[reducible]
def EnumSucceeds {F : Type} (steps : Enumerator F) : Prop :=
  ∀ step ∈ steps,
    FAILED step.moveNext = false ∧ step.haveRun = true ∧ FAILED step.getCurrentRun = false

/-- The brush creation asked for by the first sub-run that needs the solid-colour
brush succeeds (no other creation is ever asked for). -/
@[reducible]
def CreateSucceeds {F : Type} (env : Env F) (runs : List (DWRITE_COLOR_GLYPH_RUN1 F)) : Prop :=
  ∀ colorRun ∈ runs.find? needsTempBrush,
    FAILED (env.CreateSolidColorBrush colorRun.runColor) = false

/-- The call reaches the sub-run loop with the enumerator `steps`: both
capability queries succeed, the colour-font flag is set and
`TranslateColorGlyphRun` succeeds and hands out `steps`. -/
@[reducible]
def ReachesLoop {F : Type} [Add F] (env : Env F) (drawingContext : DrawingContext F)
    (x y : F) (measuringMode : DWRITE_MEASURING_MODE) (glyphRun : DWRITE_GLYPH_RUN F)
    (glyphRunDescription : GlyphRunDescriptionPtr) (steps : Enumerator F) : Prop :=
  FAILED env.renderTargetQueryInterface = false ∧
  WI_IsFlagSet drawingContext.options D2D1_DRAW_TEXT_OPTIONS_ENABLE_COLOR_FONT = true ∧
  FAILED env.dwriteFactoryQueryInterface = false ∧
  FAILED (env.TranslateColorGlyphRun ⟨x, y + drawingContext.spacing.baseline⟩ glyphRun
    glyphRunDescription CustomTextRenderer.supportedFormats measuringMode).1 = false ∧
  (env.TranslateColorGlyphRun ⟨x, y + drawingContext.spacing.baseline⟩ glyphRun
    glyphRunDescription CustomTextRenderer.supportedFormats measuringMode).2 = steps

/-! ## Sample inputs -/

namespace CustomTextRenderer

/-- Identifiers used for concrete inputs; no theorem depends on their values. -/
def sampleIds : InterfaceIds := ⟨1, 2, 3⟩

/-- A context with foreground brush 10, background brush 11, baseline offset 12
and a cell of 8 by 16. -/
def sampleContext (options : Nat) : DrawingContext F32 :=
  { foregroundBrush := 10
    backgroundBrush := 11
    spacing := ⟨F32.ofNat 12⟩
    cellSize := ⟨F32.ofNat 8, F32.ofNat 16⟩
    options := options }

/-- A run of two glyphs, each 8 wide. -/
def sampleRun : DWRITE_GLYPH_RUN F32 :=
  ⟨1, F32.ofNat 12, [65, 66], [F32.ofNat 8, F32.ofNat 8], false, 0⟩

/-- A run of one glyph of advance 1. -/
def unitRun : DWRITE_GLYPH_RUN F32 :=
  ⟨1, F32.ofNat 12, [65], [F32.ofNat 1], false, 0⟩

/-- A run of two glyphs of advance 1 each. -/
def twoUnitRun : DWRITE_GLYPH_RUN F32 :=
  ⟨1, F32.ofNat 12, [65, 66], [F32.ofNat 1, F32.ofNat 1], false, 0⟩

/-- A colour sub-run of `sampleRun` with the given colour, palette index and format. -/
def sampleColorRun (red : Nat) (paletteIndex glyphImageFormat : Nat) :
    DWRITE_COLOR_GLYPH_RUN1 F32 :=
  { glyphRun := sampleRun
    glyphRunDescription := some 7
    baselineOriginX := F32.ofNat 3
    baselineOriginY := F32.ofNat 15
    runColor := ⟨F32.ofNat red, F32.ofNat 0, F32.ofNat 0, F32.ofNat 1⟩
    paletteIndex := paletteIndex
    glyphImageFormat := glyphImageFormat
    measuringMode := DWRITE_MEASURING_MODE.GDI_CLASSIC }

/-- An enumerator round that succeeds with the given run. -/
def goodStep (colorRun : DWRITE_COLOR_GLYPH_RUN1 F32) : EnumStep F32 :=
  ⟨S_OK, true, S_OK, colorRun⟩

/-- Collaborators whose capability queries succeed, whose decomposition returns
`translateHr` with the enumerator `steps`, and whose brush creation returns
`createHr`. -/
def sampleEnv (translateHr : HRESULT) (steps : Enumerator F32) (createHr : HRESULT) : Env F32 :=
  { renderTargetQueryInterface := S_OK
    dwriteFactoryQueryInterface := S_OK
    TranslateColorGlyphRun := fun _ _ _ _ _ => (translateHr, steps)
    CreateSolidColorBrush := fun _ => createHr }

/-- `E_FAIL`, `0x80004005` read as a signed 32-bit value. -/
def E_FAIL : HRESULT := 0x80004005 - 2 ^ 32

end CustomTextRenderer

/-! ## Reference counting -/

namespace CustomTextRenderer

theorem addRefs_count (n c : Nat) :
    addRefs n ⟨c % WORD32⟩ = ⟨(c + n) % WORD32⟩ := by
  induction n generalizing c with
  | zero => simp [addRefs]
  | succ n ih =>
    have h : (c % WORD32 + 1) % WORD32 = (c + 1) % WORD32 := by unfold WORD32; omega
    simp only [addRefs, AddRef, h]
    rw [ih (c + 1)]
    congr 2
    omega

theorem addRefs_new (n : Nat) : addRefs n new = ⟨n % WORD32⟩ := by
  have h := addRefs_count n 0
  simpa [new, WORD32] using h

theorem toULONG_toLONG (u : Nat) (h : u < WORD32) : toULONG (toLONG u) = u := by
  unfold toULONG toLONG WORD32 at *
  split <;> omega

theorem Release_pos (c : Nat) (h0 : 1 < c) (h : c < WORD32) :
    Release ⟨c⟩ = (c - 1, some ⟨c - 1⟩) := by
  have hc : (c + WORD32 - 1) % WORD32 = c - 1 := by unfold WORD32 at *; omega
  have hlt : c - 1 < WORD32 := by omega
  simp only [Release, hc, toULONG_toLONG _ hlt]
  have : c - 1 ≠ 0 := by omega
  simp [this]

theorem Release_one : Release ⟨1⟩ = (0, none) := by
  decide

theorem releases_alive (n k : Nat) (hk : k < n) (hn : n < WORD32) :
    releases k ⟨n⟩ = some ⟨n - k⟩ := by
  induction k generalizing n with
  | zero => simp [releases]
  | succ k ih =>
    have h1 : 1 < n := by omega
    simp only [releases, Release_pos n h1 hn, Option.some_bind]
    rw [ih (n - 1) (by omega) (by omega)]
    congr 2
    omega

theorem releases_last (n : Nat) (h1 : 1 ≤ n) (hn : n < WORD32) :
    releases n ⟨n⟩ = none := by
  induction n with
  | zero => omega
  | succ k ih =>
    by_cases hk : k = 0
    · subst hk
      simp [releases, Release_one]
    · have h1 : 1 < k + 1 := by omega
      simp only [releases, Release_pos (k + 1) h1 hn, Option.some_bind]
      exact ih (by omega) (by omega)

theorem QueryInterface_supported (iids : InterfaceIds) (self : CustomTextRenderer) (riid : GUID)
    (h : supportedRole iids riid) :
    ∃ p, QueryInterface iids self riid
      = (S_OK, some p, ⟨(self.m_refCount + 1) % 2 ^ 32⟩) := by
  unfold QueryInterface AddRef WORD32
  by_cases h1 : riid = iids.IDWriteTextRenderer
  · exact ⟨InterfacePtr.asIDWriteTextRenderer, by rw [if_pos h1]⟩
  · by_cases h2 : riid = iids.IDWritePixelSnapping
    · exact ⟨InterfacePtr.asIDWritePixelSnapping, by rw [if_neg h1, if_pos h2]⟩
    · have h3 : riid = iids.IUnknown := by
        rcases h with h | h | h
        · exact absurd h h1
        · exact absurd h h2
        · exact h
      exact ⟨InterfacePtr.asIUnknown, by rw [if_neg h1, if_neg h2, if_pos h3]⟩

theorem QueryInterface_unsupported (iids : InterfaceIds) (self : CustomTextRenderer)
    (riid : GUID) (h : ¬ supportedRole iids riid) :
    QueryInterface iids self riid = (E_NOINTERFACE, none, self) := by
  unfold supportedRole at h
  push_neg at h
  simp [QueryInterface, h.1, h.2.1, h.2.2]

/-- C7 (as stated, refuted): one `Release` on a fresh renderer leaves it alive
with the counter at `0xFFFFFFFF`, and from there a successful `QueryInterface`
for `IUnknown` leaves the reference count at 0; it has not increased by 1. -/
theorem QueryInterface_wraps_counterexample :
    (Release new).2 = some ⟨0xFFFFFFFF⟩ ∧
    QueryInterface sampleIds ⟨0xFFFFFFFF⟩ sampleIds.IUnknown
      = (S_OK, some InterfacePtr.asIUnknown, ⟨0⟩) := by
  decide

/-- C7 (amended): `QueryInterface` succeeds exactly for the three supported
identifiers.  For a supported one it returns `S_OK`, writes a non-null handle to
this object and increments the `ULONG` reference count (by exactly 1 unless the
count was `0xFFFFFFFF`, where it wraps to 0); for any other identifier it
returns `E_NOINTERFACE`, leaves the output handle null and the object
unchanged. -/
theorem QueryInterface_roles (iids : InterfaceIds) (self : CustomTextRenderer) (riid : GUID) :
    (supportedRole iids riid →
      (∃ p, QueryInterface iids self riid
        = (S_OK, some p, ⟨(self.m_refCount + 1) % 2 ^ 32⟩)) ∧
      (self.m_refCount + 1 < 2 ^ 32 →
        (QueryInterface iids self riid).2.2.m_refCount = self.m_refCount + 1)) ∧
    (¬ supportedRole iids riid →
      QueryInterface iids self riid = (E_NOINTERFACE, none, self)) ∧
    (FAILED (QueryInterface iids self riid).1 = false ↔ supportedRole iids riid) := by
  refine ⟨fun h => ⟨QueryInterface_supported iids self riid h, fun hlt => ?_⟩,
    QueryInterface_unsupported iids self riid, ?_⟩
  · obtain ⟨p, hp⟩ := QueryInterface_supported iids self riid h
    rw [hp]
    exact Nat.mod_eq_of_lt hlt
  · by_cases h : supportedRole iids riid
    · obtain ⟨p, hp⟩ := QueryInterface_supported iids self riid h
      simp [hp, h, FAILED, S_OK]
    · rw [QueryInterface_unsupported iids self riid h]
      simp [h, FAILED, E_NOINTERFACE]

/-- C8 (as stated, refuted): after `2^32 + 1` `AddRef` calls on a fresh renderer
the `ULONG` counter has wrapped to 1, so the first `Release` already deletes the
object; and after `2^32` `AddRef` calls the counter is 0, not `N`. -/
theorem refcount_wraps_counterexample :
    releases 1 (addRefs 4294967297 new) = none ∧
    (addRefs 4294967296 new).m_refCount = 0 := by
  rw [addRefs_new, addRefs_new]
  decide

/-- C8 (amended): for every `N` with `1 <= N < 2^32`, starting from a freshly
constructed renderer, the `j`-th `AddRef` returns `j` and leaves the count at
`j`; after the `N` `AddRef` calls and any `k < N` `Release` calls the object is
alive with count `N - k > 0`, the next `Release` returns `N - k - 1`, the count
after its own update; and the `N`-th `Release` deletes the object. -/
theorem refcount_balance (N : Nat) (h1 : 1 ≤ N) (hN : N < 2 ^ 32) :
    (∀ j, j < N → AddRef (addRefs j new) = (j + 1, ⟨j + 1⟩)) ∧
    addRefs N new = ⟨N⟩ ∧
    (∀ k, k < N →
      releases k (addRefs N new) = some ⟨N - k⟩ ∧ 0 < N - k ∧
      (Release ⟨N - k⟩).1 = N - k - 1) ∧
    releases (N - 1) (addRefs N new) = some ⟨1⟩ ∧
    (Release ⟨1⟩).2 = none ∧
    releases N (addRefs N new) = none := by
  have hW : N < WORD32 := by unfold WORD32; exact hN
  have hnew : addRefs N new = ⟨N⟩ := by
    rw [addRefs_new, Nat.mod_eq_of_lt hW]
  refine ⟨?_, hnew, ?_, ?_, ?_, ?_⟩
  · intro j hj
    have hj1 : j < WORD32 := by omega
    have hj2 : j + 1 < WORD32 := by omega
    rw [addRefs_new, Nat.mod_eq_of_lt hj1]
    simp [AddRef, Nat.mod_eq_of_lt hj2]
  · intro k hk
    rw [hnew]
    refine ⟨releases_alive N k hk hW, by omega, ?_⟩
    by_cases hlast : N - k = 1
    · rw [hlast, Release_one]
    · rw [Release_pos (N - k) (by omega) (by omega)]
  · rw [hnew]
    have h := releases_alive N (N - 1) (by omega) hW
    rw [h]
    congr 2
    omega
  · rw [Release_one]
  · rw [hnew]
    exact releases_last N h1 hW

/-- Witness for C8 at `N = 3`. -/
theorem refcount_balance_witness :
    (∀ j, j < 3 → AddRef (addRefs j new) = (j + 1, ⟨j + 1⟩)) ∧
    addRefs 3 new = ⟨3⟩ ∧
    (∀ k, k < 3 →
      releases k (addRefs 3 new) = some ⟨3 - k⟩ ∧ 0 < 3 - k ∧
      (Release ⟨3 - k⟩).1 = 3 - k - 1) ∧
    releases (3 - 1) (addRefs 3 new) = some ⟨1⟩ ∧
    (Release ⟨1⟩).2 = none ∧
    releases 3 (addRefs 3 new) = none :=
  refcount_balance 3 (by decide) (by decide)

/-! ## Decorations -/

set_option maxRecDepth 100000 in
theorem f32_100_add_2 : F32.ofNat 100 + F32.ofNat 2 = F32.ofNat 102 := by
  decide

set_option maxRecDepth 100000 in
theorem f32_102_add_1 : F32.ofNat 102 + F32.ofNat 1 = F32.ofNat 103 := by
  decide

/-- C9: `DrawUnderline` and `DrawStrikethrough` return `S_OK` and issue exactly
one fill of the rectangle `[x, y + o, x + w, (y + o) + t]`, with the client
drawing effect when it is not null and the foreground brush otherwise; the
reading and flow directions do not change the result; and in binary32, for
`y = 100`, `o = 2`, `t = 1`, `w = 50` the rectangle is `[x, 102, x + 50, 103]`. -/
theorem decoration_fill {F : Type} [Add F] (ctx : DrawingContext F) (x y : F)
    (d : Decoration F) (effect : Option Nat) :
    DrawUnderline ctx x y d effect
      = ⟨S_OK, [Cmd.FillRectangle ⟨x, y + d.offset, x + d.width, y + d.offset + d.thickness⟩
          (Brush.ptr (effect.getD ctx.foregroundBrush))]⟩ ∧
    DrawStrikethrough ctx x y d effect
      = ⟨S_OK, [Cmd.FillRectangle ⟨x, y + d.offset, x + d.width, y + d.offset + d.thickness⟩
          (Brush.ptr (effect.getD ctx.foregroundBrush))]⟩ ∧
    (∀ reading flow : Nat,
      DrawUnderline ctx x y { d with readingDirection := reading, flowDirection := flow } effect
        = DrawUnderline ctx x y d effect ∧
      DrawStrikethrough ctx x y { d with readingDirection := reading, flowDirection := flow }
          effect
        = DrawStrikethrough ctx x y d effect) ∧
    (∀ (ctx32 : DrawingContext F32) (x32 : F32) (reading flow : Nat),
      DrawUnderline ctx32 x32 (F32.ofNat 100)
          ⟨F32.ofNat 50, F32.ofNat 1, F32.ofNat 2, reading, flow⟩ effect
        = ⟨S_OK, [Cmd.FillRectangle ⟨x32, F32.ofNat 102, x32 + F32.ofNat 50, F32.ofNat 103⟩
            (Brush.ptr (effect.getD ctx32.foregroundBrush))]⟩ ∧
      DrawStrikethrough ctx32 x32 (F32.ofNat 100)
          ⟨F32.ofNat 50, F32.ofNat 1, F32.ofNat 2, reading, flow⟩ effect
        = ⟨S_OK, [Cmd.FillRectangle ⟨x32, F32.ofNat 102, x32 + F32.ofNat 50, F32.ofNat 103⟩
            (Brush.ptr (effect.getD ctx32.foregroundBrush))]⟩) := by
  refine ⟨?_, ?_, ?_, ?_⟩
  · cases effect <;> rfl
  · cases effect <;> rfl
  · intro reading flow
    constructor <;> rfl
  · intro ctx32 x32 reading flow
    constructor <;>
    · cases effect <;>
        simp [DrawUnderline, DrawStrikethrough, _FillRectangle, f32_100_add_2, f32_102_add_1]

/-! ## Glyph runs: the background and the simple path -/

theorem drawColorRun_no_fill {F : Type} (env : Env F) (ctx : DrawingContext F)
    (mode : DWRITE_MEASURING_MODE) (tempBrush : Option (D2D1_COLOR_F F))
    (colorRun : DWRITE_COLOR_GLYPH_RUN1 F) :
    ∀ c ∈ (drawColorRun env ctx mode tempBrush colorRun).1, c.isFill = false := by
  unfold drawColorRun
  cases tempBrush <;> (repeat' split) <;> simp [Cmd.isFill]

theorem drawColorRuns_no_fill {F : Type} (env : Env F) (ctx : DrawingContext F)
    (mode : DWRITE_MEASURING_MODE) (steps : Enumerator F)
    (tempBrush : Option (D2D1_COLOR_F F)) :
    ∀ c ∈ (drawColorRuns env ctx mode steps tempBrush).cmds, c.isFill = false := by
  induction steps generalizing tempBrush with
  | nil => simp [drawColorRuns]
  | cons step rest ih =>
    unfold drawColorRuns
    have hbody := drawColorRun_no_fill env ctx mode tempBrush step.colorRun
    split
    · simp
    · split
      · simp
      · split
        · simp
        · split
          · next cmds hr heq =>
            rw [heq] at hbody
            exact hbody
          · next cmds tempBrush1 heq =>
            rw [heq] at hbody
            intro c hc
            rcases List.mem_append.mp hc with h | h
            · exact hbody c h
            · exact ih tempBrush1 c h

theorem foldl_add_eq_sum {R : Type} [AddCommGroup R] (x : R) (advances : List R) :
    advances.foldl (fun right advance => right + advance) x = x + advances.sum := by
  induction advances generalizing x with
  | nil => simp
  | cons a rest ih => simp [ih, add_assoc]

theorem DrawGlyphRun_simple {F : Type} [Add F] (env : Env F) (ctx : DrawingContext F)
    (x y : F) (mode : DWRITE_MEASURING_MODE) (glyphRun : DWRITE_GLYPH_RUN F)
    (desc : GlyphRunDescriptionPtr) (hRT : FAILED env.renderTargetQueryInterface = false)
    (hflag : WI_IsFlagSet ctx.options D2D1_DRAW_TEXT_OPTIONS_ENABLE_COLOR_FONT = false) :
    DrawGlyphRun env ctx x y mode glyphRun desc
      = ⟨S_OK, [Cmd.FillRectangle (backgroundRect ctx x y glyphRun)
            (Brush.ptr ctx.backgroundBrush),
          Cmd.DrawGlyphRun ⟨x, y + ctx.spacing.baseline⟩ glyphRun desc
            (Brush.ptr ctx.foregroundBrush) mode]⟩ := by
  simp [DrawGlyphRun, hRT, hflag]

theorem DrawGlyphRun_rt_failed {F : Type} [Add F] (env : Env F) (ctx : DrawingContext F)
    (x y : F) (mode : DWRITE_MEASURING_MODE) (glyphRun : DWRITE_GLYPH_RUN F)
    (desc : GlyphRunDescriptionPtr) (hRT : FAILED env.renderTargetQueryInterface = true) :
    DrawGlyphRun env ctx x y mode glyphRun desc = ⟨env.renderTargetQueryInterface, []⟩ := by
  simp [DrawGlyphRun, hRT]

theorem DrawGlyphRun_factory_failed {F : Type} [Add F] (env : Env F) (ctx : DrawingContext F)
    (x y : F) (mode : DWRITE_MEASURING_MODE) (glyphRun : DWRITE_GLYPH_RUN F)
    (desc : GlyphRunDescriptionPtr) (hRT : FAILED env.renderTargetQueryInterface = false)
    (hflag : WI_IsFlagSet ctx.options D2D1_DRAW_TEXT_OPTIONS_ENABLE_COLOR_FONT = true)
    (hF : FAILED env.dwriteFactoryQueryInterface = true) :
    DrawGlyphRun env ctx x y mode glyphRun desc
      = ⟨env.dwriteFactoryQueryInterface,
          [Cmd.FillRectangle (backgroundRect ctx x y glyphRun)
            (Brush.ptr ctx.backgroundBrush)]⟩ := by
  simp [DrawGlyphRun, hRT, hflag, hF]

theorem DrawGlyphRun_nocolor {F : Type} [Add F] (env : Env F) (ctx : DrawingContext F)
    (x y : F) (mode : DWRITE_MEASURING_MODE) (glyphRun : DWRITE_GLYPH_RUN F)
    (desc : GlyphRunDescriptionPtr) (hRT : FAILED env.renderTargetQueryInterface = false)
    (hflag : WI_IsFlagSet ctx.options D2D1_DRAW_TEXT_OPTIONS_ENABLE_COLOR_FONT = true)
    (hF : FAILED env.dwriteFactoryQueryInterface = false)
    (hT : (env.TranslateColorGlyphRun ⟨x, y + ctx.spacing.baseline⟩ glyphRun desc
      supportedFormats mode).1 = DWRITE_E_NOCOLOR) :
    DrawGlyphRun env ctx x y mode glyphRun desc
      = ⟨S_OK, [Cmd.FillRectangle (backgroundRect ctx x y glyphRun)
            (Brush.ptr ctx.backgroundBrush),
          Cmd.DrawGlyphRun ⟨x, y + ctx.spacing.baseline⟩ glyphRun desc
            (Brush.ptr ctx.foregroundBrush) mode]⟩ := by
  simp [DrawGlyphRun, hRT, hflag, hF, hT]

theorem DrawGlyphRun_translate_failed {F : Type} [Add F] (env : Env F)
    (ctx : DrawingContext F) (x y : F) (mode : DWRITE_MEASURING_MODE)
    (glyphRun : DWRITE_GLYPH_RUN F) (desc : GlyphRunDescriptionPtr)
    (hRT : FAILED env.renderTargetQueryInterface = false)
    (hflag : WI_IsFlagSet ctx.options D2D1_DRAW_TEXT_OPTIONS_ENABLE_COLOR_FONT = true)
    (hF : FAILED env.dwriteFactoryQueryInterface = false)
    (hT : (env.TranslateColorGlyphRun ⟨x, y + ctx.spacing.baseline⟩ glyphRun desc
      supportedFormats mode).1 ≠ DWRITE_E_NOCOLOR)
    (hT2 : FAILED (env.TranslateColorGlyphRun ⟨x, y + ctx.spacing.baseline⟩ glyphRun desc
      supportedFormats mode).1 = true) :
    DrawGlyphRun env ctx x y mode glyphRun desc
      = ⟨(env.TranslateColorGlyphRun ⟨x, y + ctx.spacing.baseline⟩ glyphRun desc
          supportedFormats mode).1,
          [Cmd.FillRectangle (backgroundRect ctx x y glyphRun)
            (Brush.ptr ctx.backgroundBrush)]⟩ := by
  simp [DrawGlyphRun, hRT, hflag, hF, hT, hT2]

theorem failed_nocolor : FAILED DWRITE_E_NOCOLOR = true := by
  decide

theorem DrawGlyphRun_loop {F : Type} [Add F] (env : Env F) (ctx : DrawingContext F)
    (x y : F) (mode : DWRITE_MEASURING_MODE) (glyphRun : DWRITE_GLYPH_RUN F)
    (desc : GlyphRunDescriptionPtr) (steps : Enumerator F)
    (h : ReachesLoop env ctx x y mode glyphRun desc steps) :
    DrawGlyphRun env ctx x y mode glyphRun desc
      = ⟨(drawColorRuns env ctx mode steps none).hr,
          Cmd.FillRectangle (backgroundRect ctx x y glyphRun) (Brush.ptr ctx.backgroundBrush)
            :: (drawColorRuns env ctx mode steps none).cmds⟩ := by
  obtain ⟨hRT, hflag, hF, hT, hsteps⟩ := h
  have hne : (env.TranslateColorGlyphRun ⟨x, y + ctx.spacing.baseline⟩ glyphRun desc
      supportedFormats mode).1 ≠ DWRITE_E_NOCOLOR := by
    intro heq
    rw [heq, failed_nocolor] at hT
    exact Bool.noConfusion hT
  simp [DrawGlyphRun, hRT, hflag, hF, hT, hne, hsteps]

set_option maxRecDepth 100000 in
/-- C10 (as stated, refuted): with `x = 16777216` and a run of two glyphs of
advance 1 each, the fill rectangle has `right = 16777216` (each `+ 1` rounds
back in binary32), while the advances sum to 2 and `x` plus that sum is
`16777218`. -/
theorem fill_right_edge_counterexample :
    DrawGlyphRun (sampleEnv S_OK [] S_OK) (sampleContext 0) (F32.ofNat 16777216) (F32.ofNat 0)
        DWRITE_MEASURING_MODE.NATURAL twoUnitRun none
      = ⟨S_OK,
          [Cmd.FillRectangle
            ⟨F32.ofNat 16777216, F32.ofNat 0, F32.ofNat 16777216, F32.ofNat 16⟩ (Brush.ptr 11),
           Cmd.DrawGlyphRun ⟨F32.ofNat 16777216, F32.ofNat 12⟩ twoUnitRun none (Brush.ptr 10)
            DWRITE_MEASURING_MODE.NATURAL]⟩ ∧
    twoUnitRun.glyphAdvances = [F32.ofNat 1, F32.ofNat 1] ∧
    F32.ofNat 1 + F32.ofNat 1 = F32.ofNat 2 ∧
    F32.ofNat 16777216 + F32.ofNat 2 = F32.ofNat 16777218 ∧
    F32.ofNat 16777216 ≠ F32.ofNat 16777218 := by
  decide

/-- C10 (amended): whenever the render-target capability query succeeds, the
first command of `DrawGlyphRun` is the background fill, with the background
brush and the rectangle whose left edge is `x`, whose top is `y` (not shifted by
the baseline), whose bottom is `y + cellSize.height` and whose right edge is `x`
with the glyph advances added to it one after another in run order; no later
command of the call is a fill, on every path; for a run without glyphs
`right = left`. -/
theorem background_fill_first {F : Type} [Add F] (env : Env F) (ctx : DrawingContext F)
    (x y : F) (mode : DWRITE_MEASURING_MODE) (glyphRun : DWRITE_GLYPH_RUN F)
    (desc : GlyphRunDescriptionPtr) (hRT : FAILED env.renderTargetQueryInterface = false) :
    (∃ rest,
      (DrawGlyphRun env ctx x y mode glyphRun desc).cmds
        = Cmd.FillRectangle
            ⟨x, y, glyphRun.glyphAdvances.foldl (fun right advance => right + advance) x,
              y + ctx.cellSize.height⟩
            (Brush.ptr ctx.backgroundBrush) :: rest ∧
      ∀ c ∈ rest, c.isFill = false) ∧
    (glyphRun.glyphAdvances = [] →
      (DrawGlyphRun env ctx x y mode glyphRun desc).cmds.head?
        = some (Cmd.FillRectangle ⟨x, y, x, y + ctx.cellSize.height⟩
            (Brush.ptr ctx.backgroundBrush))) := by
  have key : ∃ rest,
      (DrawGlyphRun env ctx x y mode glyphRun desc).cmds
        = Cmd.FillRectangle
            ⟨x, y, glyphRun.glyphAdvances.foldl (fun right advance => right + advance) x,
              y + ctx.cellSize.height⟩
            (Brush.ptr ctx.backgroundBrush) :: rest ∧
      ∀ c ∈ rest, c.isFill = false := by
    by_cases hflag : WI_IsFlagSet ctx.options D2D1_DRAW_TEXT_OPTIONS_ENABLE_COLOR_FONT = true
    · by_cases hF : FAILED env.dwriteFactoryQueryInterface = true
      · rw [DrawGlyphRun_factory_failed env ctx x y mode glyphRun desc hRT hflag hF]
        exact ⟨[], rfl, by simp⟩
      · have hF1 : FAILED env.dwriteFactoryQueryInterface = false := by simpa using hF
        by_cases hT : (env.TranslateColorGlyphRun ⟨x, y + ctx.spacing.baseline⟩ glyphRun desc
            supportedFormats mode).1 = DWRITE_E_NOCOLOR
        · rw [DrawGlyphRun_nocolor env ctx x y mode glyphRun desc hRT hflag hF1 hT]
          exact ⟨_, rfl, by simp [Cmd.isFill]⟩
        · by_cases hT2 : FAILED (env.TranslateColorGlyphRun ⟨x, y + ctx.spacing.baseline⟩
              glyphRun desc supportedFormats mode).1 = true
          · rw [DrawGlyphRun_translate_failed env ctx x y mode glyphRun desc hRT hflag hF1
              hT hT2]
            exact ⟨[], rfl, by simp⟩
          · have hT3 : FAILED (env.TranslateColorGlyphRun ⟨x, y + ctx.spacing.baseline⟩
                glyphRun desc supportedFormats mode).1 = false := by simpa using hT2
            rw [DrawGlyphRun_loop env ctx x y mode glyphRun desc _
              ⟨hRT, hflag, hF1, hT3, rfl⟩]
            exact ⟨_, rfl, drawColorRuns_no_fill env ctx mode _ none⟩
    · have hflag1 : WI_IsFlagSet ctx.options D2D1_DRAW_TEXT_OPTIONS_ENABLE_COLOR_FONT = false := by
        simpa using hflag
      rw [DrawGlyphRun_simple env ctx x y mode glyphRun desc hRT hflag1]
      exact ⟨_, rfl, by simp [Cmd.isFill]⟩
  refine ⟨key, fun hnil => ?_⟩
  obtain ⟨rest, hrest, _⟩ := key
  rw [hrest, hnil]
  rfl

/-- Witness for C10: a colour-font call on two sub-runs. -/
theorem background_fill_first_witness :
    (∃ rest,
      (DrawGlyphRun
          (sampleEnv S_OK [goodStep (sampleColorRun 1 0 4), goodStep (sampleColorRun 2 0xFFFF 8)]
            S_OK)
          (sampleContext 4) (F32.ofNat 0) (F32.ofNat 32) DWRITE_MEASURING_MODE.NATURAL
          sampleRun none).cmds
        = Cmd.FillRectangle
            ⟨F32.ofNat 0, F32.ofNat 32,
              sampleRun.glyphAdvances.foldl (fun right advance => right + advance) (F32.ofNat 0),
              F32.ofNat 32 + (sampleContext 4).cellSize.height⟩
            (Brush.ptr (sampleContext 4).backgroundBrush) :: rest ∧
      ∀ c ∈ rest, c.isFill = false) ∧
    (sampleRun.glyphAdvances = [] →
      (DrawGlyphRun
          (sampleEnv S_OK [goodStep (sampleColorRun 1 0 4), goodStep (sampleColorRun 2 0xFFFF 8)]
            S_OK)
          (sampleContext 4) (F32.ofNat 0) (F32.ofNat 32) DWRITE_MEASURING_MODE.NATURAL
          sampleRun none).cmds.head?
        = some (Cmd.FillRectangle
            ⟨F32.ofNat 0, F32.ofNat 32, F32.ofNat 0,
              F32.ofNat 32 + (sampleContext 4).cellSize.height⟩
            (Brush.ptr (sampleContext 4).backgroundBrush))) :=
  background_fill_first _ _ _ _ _ _ _ (by decide)

set_option maxRecDepth 100000 in
/-- C1 (as stated, refuted): with the colour-font flag clear, `x = 16777216` and
a run of one glyph of advance 1, the fill rectangle has `right = left`
(`16777216 + 1` rounds to `16777216` in binary32), so its width `right - left`
is 0 while the advances sum to 1. -/
theorem fill_width_counterexample :
    DrawGlyphRun (sampleEnv S_OK [] S_OK) (sampleContext 0) (F32.ofNat 16777216) (F32.ofNat 0)
        DWRITE_MEASURING_MODE.NATURAL unitRun none
      = ⟨S_OK,
          [Cmd.FillRectangle
            ⟨F32.ofNat 16777216, F32.ofNat 0, F32.ofNat 16777216, F32.ofNat 16⟩ (Brush.ptr 11),
           Cmd.DrawGlyphRun ⟨F32.ofNat 16777216, F32.ofNat 12⟩ unitRun none (Brush.ptr 10)
            DWRITE_MEASURING_MODE.NATURAL]⟩ ∧
    F32.ofNat 16777216 - F32.ofNat 16777216 = F32.ofNat 0 ∧
    unitRun.glyphAdvances = [F32.ofNat 1] ∧
    F32.ofNat 0 ≠ F32.ofNat 1 := by
  decide

/-- C1 (amended): with the colour-font flag clear and the render-target query
succeeding, `DrawGlyphRun` returns `S_OK` and issues exactly two commands: the
background fill, whose right edge is the left edge `x` with the run's glyph
advances added to it one after another, and one plain draw of the whole run
with the foreground brush at `(x, y + spacing.baseline)` in the caller's
measuring mode.  When the scalar arithmetic is exact (an additive group) the
width `right - left` of that rectangle is the sum of the advances. -/
theorem simple_path_commands {F : Type} [Add F] (env : Env F) (ctx : DrawingContext F)
    (x y : F) (mode : DWRITE_MEASURING_MODE) (glyphRun : DWRITE_GLYPH_RUN F)
    (desc : GlyphRunDescriptionPtr) (hRT : FAILED env.renderTargetQueryInterface = false)
    (hflag : WI_IsFlagSet ctx.options D2D1_DRAW_TEXT_OPTIONS_ENABLE_COLOR_FONT = false) :
    DrawGlyphRun env ctx x y mode glyphRun desc
      = ⟨S_OK,
          [Cmd.FillRectangle
            ⟨x, y, glyphRun.glyphAdvances.foldl (fun right advance => right + advance) x,
              y + ctx.cellSize.height⟩
            (Brush.ptr ctx.backgroundBrush),
           Cmd.DrawGlyphRun ⟨x, y + ctx.spacing.baseline⟩ glyphRun desc
            (Brush.ptr ctx.foregroundBrush) mode]⟩ ∧
    ∀ (R : Type) [AddCommGroup R] (ctxR : DrawingContext R) (xR yR : R)
      (runR : DWRITE_GLYPH_RUN R),
      (backgroundRect ctxR xR yR runR).right - (backgroundRect ctxR xR yR runR).left
        = runR.glyphAdvances.sum := by
  refine ⟨DrawGlyphRun_simple env ctx x y mode glyphRun desc hRT hflag, ?_⟩
  intro R _ ctxR xR yR runR
  simp [backgroundRect, foldl_add_eq_sum]

/-- Witness for C1: the two-glyph sample run with the flag clear. -/
theorem simple_path_commands_witness :
    DrawGlyphRun (sampleEnv S_OK [] S_OK) (sampleContext 0) (F32.ofNat 0) (F32.ofNat 32)
        DWRITE_MEASURING_MODE.NATURAL sampleRun (some 7)
      = ⟨S_OK,
          [Cmd.FillRectangle
            ⟨F32.ofNat 0, F32.ofNat 32,
              sampleRun.glyphAdvances.foldl (fun right advance => right + advance) (F32.ofNat 0),
              F32.ofNat 32 + (sampleContext 0).cellSize.height⟩
            (Brush.ptr (sampleContext 0).backgroundBrush),
           Cmd.DrawGlyphRun ⟨F32.ofNat 0, F32.ofNat 32 + (sampleContext 0).spacing.baseline⟩
            sampleRun (some 7) (Brush.ptr (sampleContext 0).foregroundBrush)
            DWRITE_MEASURING_MODE.NATURAL]⟩ ∧
    ∀ (R : Type) [AddCommGroup R] (ctxR : DrawingContext R) (xR yR : R)
      (runR : DWRITE_GLYPH_RUN R),
      (backgroundRect ctxR xR yR runR).right - (backgroundRect ctxR xR yR runR).left
        = runR.glyphAdvances.sum :=
  simple_path_commands _ _ _ _ _ _ _ (by decide) (by decide)

/-- C2: when the colour-font flag is set, the factory query succeeds and
`TranslateColorGlyphRun` returns `DWRITE_E_NOCOLOR`, `DrawGlyphRun` returns the
same status and issues the same commands as the same call on a context whose
options have the flag clear: after a successful render-target query, `S_OK`,
the background fill and one plain draw of the whole run with the foreground
brush at `(x, y + spacing.baseline)`. -/
theorem nocolor_same_as_flag_clear {F : Type} [Add F] (env : Env F) (ctx : DrawingContext F)
    (x y : F) (mode : DWRITE_MEASURING_MODE) (glyphRun : DWRITE_GLYPH_RUN F)
    (desc : GlyphRunDescriptionPtr) (clearOptions : Nat)
    (hflag : WI_IsFlagSet ctx.options D2D1_DRAW_TEXT_OPTIONS_ENABLE_COLOR_FONT = true)
    (hclear : WI_IsFlagSet clearOptions D2D1_DRAW_TEXT_OPTIONS_ENABLE_COLOR_FONT = false)
    (hF : FAILED env.dwriteFactoryQueryInterface = false)
    (hT : (env.TranslateColorGlyphRun ⟨x, y + ctx.spacing.baseline⟩ glyphRun desc
      supportedFormats mode).1 = DWRITE_E_NOCOLOR) :
    DrawGlyphRun env ctx x y mode glyphRun desc
      = DrawGlyphRun env { ctx with options := clearOptions } x y mode glyphRun desc ∧
    (FAILED env.renderTargetQueryInterface = false →
      DrawGlyphRun env ctx x y mode glyphRun desc
        = ⟨S_OK,
            [Cmd.FillRectangle
              ⟨x, y, glyphRun.glyphAdvances.foldl (fun right advance => right + advance) x,
                y + ctx.cellSize.height⟩
              (Brush.ptr ctx.backgroundBrush),
             Cmd.DrawGlyphRun ⟨x, y + ctx.spacing.baseline⟩ glyphRun desc
              (Brush.ptr ctx.foregroundBrush) mode]⟩) := by
  by_cases hRT : FAILED env.renderTargetQueryInterface = true
  · refine ⟨?_, fun h => ?_⟩
    · rw [DrawGlyphRun_rt_failed env ctx x y mode glyphRun desc hRT,
        DrawGlyphRun_rt_failed env _ x y mode glyphRun desc hRT]
    · rw [h] at hRT
      exact Bool.noConfusion hRT
  · have hRT1 : FAILED env.renderTargetQueryInterface = false := by simpa using hRT
    refine ⟨?_, fun _ => ?_⟩
    · rw [DrawGlyphRun_nocolor env ctx x y mode glyphRun desc hRT1 hflag hF hT,
        DrawGlyphRun_simple env { ctx with options := clearOptions } x y mode glyphRun desc
          hRT1 hclear]
      rfl
    · rw [DrawGlyphRun_nocolor env ctx x y mode glyphRun desc hRT1 hflag hF hT]
      rfl

/-- Witness for C2: options `4` (flag set) against options `0` (flag clear). -/
theorem nocolor_same_as_flag_clear_witness :
    DrawGlyphRun (sampleEnv DWRITE_E_NOCOLOR [] S_OK) (sampleContext 4) (F32.ofNat 0)
        (F32.ofNat 32) DWRITE_MEASURING_MODE.NATURAL sampleRun (some 7)
      = DrawGlyphRun (sampleEnv DWRITE_E_NOCOLOR [] S_OK)
          { sampleContext 4 with options := 0 } (F32.ofNat 0) (F32.ofNat 32)
          DWRITE_MEASURING_MODE.NATURAL sampleRun (some 7) ∧
    (FAILED (sampleEnv DWRITE_E_NOCOLOR [] S_OK).renderTargetQueryInterface = false →
      DrawGlyphRun (sampleEnv DWRITE_E_NOCOLOR [] S_OK) (sampleContext 4) (F32.ofNat 0)
          (F32.ofNat 32) DWRITE_MEASURING_MODE.NATURAL sampleRun (some 7)
        = ⟨S_OK,
            [Cmd.FillRectangle
              ⟨F32.ofNat 0, F32.ofNat 32,
                sampleRun.glyphAdvances.foldl (fun right advance => right + advance)
                  (F32.ofNat 0),
                F32.ofNat 32 + (sampleContext 4).cellSize.height⟩
              (Brush.ptr (sampleContext 4).backgroundBrush),
             Cmd.DrawGlyphRun ⟨F32.ofNat 0, F32.ofNat 32 + (sampleContext 4).spacing.baseline⟩
              sampleRun (some 7) (Brush.ptr (sampleContext 4).foregroundBrush)
              DWRITE_MEASURING_MODE.NATURAL]⟩) :=
  nocolor_same_as_flag_clear _ _ _ _ _ _ _ 0 (by decide) (by decide) (by decide) (by decide)

/-! ## Glyph runs: the colour sub-run loop -/

theorem drawColorRun_spec {F : Type} (env : Env F) (ctx : DrawingContext F)
    (mode : DWRITE_MEASURING_MODE) (tempBrush : Option (D2D1_COLOR_F F))
    (colorRun : DWRITE_COLOR_GLYPH_RUN1 F)
    (hcreate : needsTempBrush colorRun = true → tempBrush = none →
      FAILED (env.CreateSolidColorBrush colorRun.runColor) = false) :
    drawColorRun env ctx mode tempBrush colorRun
      = (specRunCmds ctx mode tempBrush.isSome colorRun,
          Except.ok (if needsTempBrush colorRun then some colorRun.runColor else tempBrush)) := by
  by_cases hb : colorRun.glyphImageFormat = DWRITE_GLYPH_IMAGE_FORMATS_PNG ∨
      colorRun.glyphImageFormat = DWRITE_GLYPH_IMAGE_FORMATS_JPEG ∨
      colorRun.glyphImageFormat = DWRITE_GLYPH_IMAGE_FORMATS_TIFF ∨
      colorRun.glyphImageFormat = DWRITE_GLYPH_IMAGE_FORMATS_PREMULTIPLIED_B8G8R8A8
  · have hbit : isBitmapRun colorRun = true := by
      simpa [isBitmapRun, or_assoc] using hb
    simp [drawColorRun, hb, specRunCmds, specPaint, needsTempBrush, isOutlineRun, hbit]
  · have hbit : isBitmapRun colorRun = false := by
      have : ¬ isBitmapRun colorRun = true := by
        simpa [isBitmapRun, or_assoc] using hb
      simpa using this
    by_cases hs : colorRun.glyphImageFormat = DWRITE_GLYPH_IMAGE_FORMATS_SVG
    · have hsvg : isSvgRun colorRun = true := by simpa [isSvgRun] using hs
      simp only [drawColorRun, if_neg hb, if_pos hs]
      simp [specRunCmds, specPaint, needsTempBrush, isOutlineRun, hbit, hsvg]
    · have hsvg : isSvgRun colorRun = false := by simpa [isSvgRun] using hs
      by_cases hp : colorRun.paletteIndex = 0xFFFF
      · simp [drawColorRun, hb, hs, hp, specRunCmds, specPaint, needsTempBrush, isOutlineRun,
          hbit, hsvg]
      · have hneeds : needsTempBrush colorRun = true := by
          simp [needsTempBrush, isOutlineRun, hbit, hsvg, hp]
        cases tempBrush with
        | none =>
          have hok := hcreate hneeds rfl
          simp [drawColorRun, hb, hs, hp, specRunCmds, specPaint, hneeds, hbit, hsvg, hok]
        | some color =>
          simp [drawColorRun, hb, hs, hp, specRunCmds, specPaint, hneeds, hbit, hsvg]

theorem drawColorRuns_cons {F : Type} (env : Env F) (ctx : DrawingContext F)
    (mode : DWRITE_MEASURING_MODE) (step : EnumStep F) (rest : Enumerator F)
    (tempBrush tempBrush1 : Option (D2D1_COLOR_F F)) (cmds : List (Cmd F))
    (hm : FAILED step.moveNext = false) (hh : step.haveRun = true)
    (hg : FAILED step.getCurrentRun = false)
    (hbody : drawColorRun env ctx mode tempBrush step.colorRun = (cmds, Except.ok tempBrush1)) :
    drawColorRuns env ctx mode (step :: rest) tempBrush
      = ⟨(drawColorRuns env ctx mode rest tempBrush1).hr,
          cmds ++ (drawColorRuns env ctx mode rest tempBrush1).cmds⟩ := by
  simp [drawColorRuns, hm, hh, hg, hbody]

theorem drawColorRuns_cons_error {F : Type} (env : Env F) (ctx : DrawingContext F)
    (mode : DWRITE_MEASURING_MODE) (step : EnumStep F) (rest : Enumerator F)
    (tempBrush : Option (D2D1_COLOR_F F)) (cmds : List (Cmd F)) (hr : HRESULT)
    (hm : FAILED step.moveNext = false) (hh : step.haveRun = true)
    (hg : FAILED step.getCurrentRun = false)
    (hbody : drawColorRun env ctx mode tempBrush step.colorRun = (cmds, Except.error hr)) :
    drawColorRuns env ctx mode (step :: rest) tempBrush = ⟨hr, cmds⟩ := by
  simp [drawColorRuns, hm, hh, hg, hbody]

theorem drawColorRuns_append {F : Type} (env : Env F) (ctx : DrawingContext F)
    (mode : DWRITE_MEASURING_MODE) (pre rest : Enumerator F)
    (tempBrush : Option (D2D1_COLOR_F F)) (hE : EnumSucceeds pre)
    (hC : tempBrush = none → CreateSucceeds env (pre.map (fun step => step.colorRun))) :
    drawColorRuns env ctx mode (pre ++ rest) tempBrush
      = ⟨(drawColorRuns env ctx mode rest
            (brushAfter tempBrush (pre.map (fun step => step.colorRun)))).hr,
          specLoopCmds ctx mode tempBrush.isSome (pre.map (fun step => step.colorRun)) ++
            (drawColorRuns env ctx mode rest
              (brushAfter tempBrush (pre.map (fun step => step.colorRun)))).cmds⟩ := by
  induction pre generalizing tempBrush with
  | nil => simp [brushAfter, specLoopCmds]
  | cons step pre ih =>
    obtain ⟨hm, hh, hg⟩ := hE step (List.mem_cons_self _ _)
    have hE1 : EnumSucceeds pre := fun q hq => hE q (List.mem_cons_of_mem _ hq)
    have hbody := drawColorRun_spec env ctx mode tempBrush step.colorRun
      (fun hn htb => hC htb step.colorRun (by simp [List.find?, hn]))
    have hC1 : (if needsTempBrush step.colorRun then some step.colorRun.runColor
        else tempBrush) = none → CreateSucceeds env (pre.map (fun step => step.colorRun)) := by
      intro hnone
      by_cases hn : needsTempBrush step.colorRun = true
      · simp [hn] at hnone
      · have hn1 : needsTempBrush step.colorRun = false := by simpa using hn
        simp only [hn1, Bool.false_eq_true, if_false] at hnone
        intro colorRun hfind
        exact hC hnone colorRun (by simpa [List.find?, hn1] using hfind)
    have hsome : (if needsTempBrush step.colorRun then some step.colorRun.runColor
        else tempBrush).isSome = (tempBrush.isSome || needsTempBrush step.colorRun) := by
      by_cases hn : needsTempBrush step.colorRun = true
      · simp [hn]
      · have hn1 : needsTempBrush step.colorRun = false := by simpa using hn
        simp [hn1]
    have hrec := ih _ hE1 hC1
    rw [hsome] at hrec
    rw [List.cons_append, drawColorRuns_cons env ctx mode step (pre ++ rest) tempBrush _ _
      hm hh hg hbody, hrec]
    simp [brushAfter, specLoopCmds]

theorem drawColorRuns_spec {F : Type} (env : Env F) (ctx : DrawingContext F)
    (mode : DWRITE_MEASURING_MODE) (steps : Enumerator F)
    (tempBrush : Option (D2D1_COLOR_F F)) (hE : EnumSucceeds steps)
    (hC : tempBrush = none → CreateSucceeds env (steps.map (fun step => step.colorRun))) :
    drawColorRuns env ctx mode steps tempBrush
      = ⟨S_OK, specLoopCmds ctx mode tempBrush.isSome
          (steps.map (fun step => step.colorRun))⟩ := by
  have h := drawColorRuns_append env ctx mode steps [] tempBrush hE hC
  simpa [drawColorRuns] using h

theorem specPaint_isGlyphPaint {F : Type} (ctx : DrawingContext F)
    (mode : DWRITE_MEASURING_MODE) (colorRun : DWRITE_COLOR_GLYPH_RUN1 F) :
    (specPaint ctx mode colorRun).isGlyphPaint = true := by
  unfold specPaint
  split
  · rfl
  · split <;> rfl

theorem specPaint_not_brush {F : Type} (ctx : DrawingContext F)
    (mode : DWRITE_MEASURING_MODE) (colorRun : DWRITE_COLOR_GLYPH_RUN1 F) :
    (specPaint ctx mode colorRun).isCreateBrush = false ∧
    (specPaint ctx mode colorRun).isSetColor = false := by
  unfold specPaint
  split
  · exact ⟨rfl, rfl⟩
  · split <;> exact ⟨rfl, rfl⟩

theorem brush_cmds_kinds {F : Type} (color : D2D1_COLOR_F F) :
    (Cmd.CreateSolidColorBrush color).isGlyphPaint = false ∧
    (Cmd.SetColor color).isGlyphPaint = false ∧
    (Cmd.CreateSolidColorBrush color).isCreateBrush = true ∧
    (Cmd.SetColor color).isCreateBrush = false ∧
    (Cmd.CreateSolidColorBrush color).isSetColor = false ∧
    (Cmd.SetColor color).isSetColor = true :=
  ⟨rfl, rfl, rfl, rfl, rfl, rfl⟩

theorem specLoopCmds_paints {F : Type} (ctx : DrawingContext F)
    (mode : DWRITE_MEASURING_MODE) (brushExists : Bool)
    (runs : List (DWRITE_COLOR_GLYPH_RUN1 F)) :
    (specLoopCmds ctx mode brushExists runs).filter Cmd.isGlyphPaint
      = runs.map (specPaint ctx mode) := by
  induction runs generalizing brushExists with
  | nil => simp [specLoopCmds]
  | cons colorRun rest ih =>
    simp only [specLoopCmds, List.filter_append, ih, List.map_cons, specRunCmds]
    cases brushExists <;> cases needsTempBrush colorRun <;>
      simp [List.filter_cons, specPaint_isGlyphPaint, brush_cmds_kinds]

theorem specLoopCmds_no_create {F : Type} (ctx : DrawingContext F)
    (mode : DWRITE_MEASURING_MODE) (runs : List (DWRITE_COLOR_GLYPH_RUN1 F)) :
    (specLoopCmds ctx mode true runs).filter Cmd.isCreateBrush = [] := by
  induction runs with
  | nil => simp [specLoopCmds]
  | cons colorRun rest ih =>
    simp only [specLoopCmds, List.filter_append, Bool.true_or, ih, specRunCmds]
    cases needsTempBrush colorRun <;>
      simp [List.filter_cons, (specPaint_not_brush ctx mode colorRun).1, brush_cmds_kinds]

theorem specLoopCmds_create_count {F : Type} (ctx : DrawingContext F)
    (mode : DWRITE_MEASURING_MODE) (runs : List (DWRITE_COLOR_GLYPH_RUN1 F)) :
    ((specLoopCmds ctx mode false runs).filter Cmd.isCreateBrush).length
      = if runs.any needsTempBrush then 1 else 0 := by
  induction runs with
  | nil => simp [specLoopCmds]
  | cons colorRun rest ih =>
    simp only [specLoopCmds, List.filter_append, Bool.false_or, specRunCmds, List.any_cons,
      List.length_append]
    by_cases hn : needsTempBrush colorRun = true
    · simp [hn, specLoopCmds_no_create, List.filter_cons,
        (specPaint_not_brush ctx mode colorRun).1, brush_cmds_kinds]
    · have hn1 : needsTempBrush colorRun = false := by simpa using hn
      simp [hn1, ih, List.filter_cons, (specPaint_not_brush ctx mode colorRun).1]

theorem specLoopCmds_setColor_count {F : Type} (ctx : DrawingContext F)
    (mode : DWRITE_MEASURING_MODE) (brushExists : Bool)
    (runs : List (DWRITE_COLOR_GLYPH_RUN1 F)) :
    ((specLoopCmds ctx mode brushExists runs).filter Cmd.isSetColor).length
      = if brushExists then (runs.filter needsTempBrush).length
        else (runs.filter needsTempBrush).length - 1 := by
  induction runs generalizing brushExists with
  | nil => simp [specLoopCmds]
  | cons colorRun rest ih =>
    simp only [specLoopCmds, List.filter_append, specRunCmds, List.length_append, ih]
    cases brushExists <;> cases hn : needsTempBrush colorRun <;>
      simp [List.filter_cons, hn, (specPaint_not_brush ctx mode colorRun).2, brush_cmds_kinds,
        Nat.add_comm]

theorem specLoopCmds_no_need {F : Type} (ctx : DrawingContext F)
    (mode : DWRITE_MEASURING_MODE) (brushExists : Bool)
    (pre rest : List (DWRITE_COLOR_GLYPH_RUN1 F))
    (hpre : ∀ q ∈ pre, needsTempBrush q = false) :
    specLoopCmds ctx mode brushExists (pre ++ rest)
      = pre.map (specPaint ctx mode) ++ specLoopCmds ctx mode brushExists rest := by
  induction pre with
  | nil => simp
  | cons colorRun pre ih =>
    have hn : needsTempBrush colorRun = false := hpre colorRun (List.mem_cons_self _ _)
    have ih1 := ih (fun q hq => hpre q (List.mem_cons_of_mem _ hq))
    simp [specLoopCmds, specRunCmds, hn, ih1]

theorem brushAfter_no_need {F : Type} (tempBrush : Option (D2D1_COLOR_F F))
    (pre : List (DWRITE_COLOR_GLYPH_RUN1 F)) (hpre : ∀ q ∈ pre, needsTempBrush q = false) :
    brushAfter tempBrush pre = tempBrush := by
  induction pre with
  | nil => rfl
  | cons colorRun pre ih =>
    have hn : needsTempBrush colorRun = false := hpre colorRun (List.mem_cons_self _ _)
    simp [brushAfter, hn, ih (fun q hq => hpre q (List.mem_cons_of_mem _ hq))]

theorem svg_not_bitmap {F : Type} (colorRun : DWRITE_COLOR_GLYPH_RUN1 F)
    (h : isSvgRun colorRun = true) : isBitmapRun colorRun = false := by
  have hs : colorRun.glyphImageFormat = DWRITE_GLYPH_IMAGE_FORMATS_SVG := by
    simpa [isSvgRun] using h
  simp [isBitmapRun, hs, DWRITE_GLYPH_IMAGE_FORMATS_SVG, DWRITE_GLYPH_IMAGE_FORMATS_PNG,
    DWRITE_GLYPH_IMAGE_FORMATS_JPEG, DWRITE_GLYPH_IMAGE_FORMATS_TIFF,
    DWRITE_GLYPH_IMAGE_FORMATS_PREMULTIPLIED_B8G8R8A8]

theorem DrawGlyphRun_all_succeed {F : Type} [Add F] (env : Env F) (ctx : DrawingContext F)
    (x y : F) (mode : DWRITE_MEASURING_MODE) (glyphRun : DWRITE_GLYPH_RUN F)
    (desc : GlyphRunDescriptionPtr) (steps : Enumerator F)
    (hloop : ReachesLoop env ctx x y mode glyphRun desc steps) (hE : EnumSucceeds steps)
    (hC : CreateSucceeds env (steps.map (fun step => step.colorRun))) :
    DrawGlyphRun env ctx x y mode glyphRun desc
      = ⟨S_OK, Cmd.FillRectangle (backgroundRect ctx x y glyphRun)
          (Brush.ptr ctx.backgroundBrush)
          :: specLoopCmds ctx mode false (steps.map (fun step => step.colorRun))⟩ := by
  rw [DrawGlyphRun_loop env ctx x y mode glyphRun desc steps hloop,
    drawColorRuns_spec env ctx mode steps none hE (fun _ => hC)]
  rfl

/-- C3: when the call reaches the sub-run loop and every enumerator and brush
call succeeds, `DrawGlyphRun` returns `S_OK` and its glyph-paint commands are
exactly one per sub-run, in enumeration order, each the command `specPaint`
gives for the sub-run's format, with the caller's measuring mode.  For sub-runs
of formats SVG, raster, outline with explicit colour, outline with inherited
colour they are an SVG draw, a bitmap draw and two plain draws, in that order. -/
theorem color_runs_dispatch {F : Type} [Add F] (env : Env F) (ctx : DrawingContext F)
    (x y : F) (mode : DWRITE_MEASURING_MODE) (glyphRun : DWRITE_GLYPH_RUN F)
    (desc : GlyphRunDescriptionPtr) (steps : Enumerator F)
    (hloop : ReachesLoop env ctx x y mode glyphRun desc steps) (hE : EnumSucceeds steps)
    (hC : CreateSucceeds env (steps.map (fun step => step.colorRun))) :
    (DrawGlyphRun env ctx x y mode glyphRun desc).hr = S_OK ∧
    (DrawGlyphRun env ctx x y mode glyphRun desc).cmds.filter Cmd.isGlyphPaint
      = (steps.map (fun step => step.colorRun)).map (specPaint ctx mode) ∧
    (∀ r1 r2 r3 r4 : DWRITE_COLOR_GLYPH_RUN1 F,
      steps.map (fun step => step.colorRun) = [r1, r2, r3, r4] →
      isSvgRun r1 = true → isBitmapRun r2 = true →
      isOutlineRun r3 = true → r3.paletteIndex ≠ 0xFFFF →
      isOutlineRun r4 = true → r4.paletteIndex = 0xFFFF →
      (DrawGlyphRun env ctx x y mode glyphRun desc).cmds.filter Cmd.isGlyphPaint
        = [Cmd.DrawSvgGlyphRun ⟨r1.baselineOriginX, r1.baselineOriginY⟩ r1.glyphRun
            (Brush.ptr ctx.foregroundBrush) none 0 mode,
           Cmd.DrawColorBitmapGlyphRun r2.glyphImageFormat
            ⟨r2.baselineOriginX, r2.baselineOriginY⟩ r2.glyphRun mode,
           Cmd.DrawGlyphRun ⟨r3.baselineOriginX, r3.baselineOriginY⟩ r3.glyphRun
            r3.glyphRunDescription Brush.tempBrush mode,
           Cmd.DrawGlyphRun ⟨r4.baselineOriginX, r4.baselineOriginY⟩ r4.glyphRun
            r4.glyphRunDescription (Brush.ptr ctx.foregroundBrush) mode]) := by
  have hall := DrawGlyphRun_all_succeed env ctx x y mode glyphRun desc steps hloop hE hC
  have hpaints : (DrawGlyphRun env ctx x y mode glyphRun desc).cmds.filter Cmd.isGlyphPaint
      = (steps.map (fun step => step.colorRun)).map (specPaint ctx mode) := by
    rw [hall]
    simp only [List.filter_cons]
    rw [specLoopCmds_paints]
    rfl
  refine ⟨by rw [hall], hpaints, ?_⟩
  intro r1 r2 r3 r4 hruns h1 h2 h3 hp3 h4 hp4
  rw [hpaints, hruns]
  have hb1 := svg_not_bitmap r1 h1
  have hb3 : isBitmapRun r3 = false ∧ isSvgRun r3 = false := by
    simpa [isOutlineRun] using h3
  have hb4 : isBitmapRun r4 = false ∧ isSvgRun r4 = false := by
    simpa [isOutlineRun] using h4
  simp [specPaint, h1, hb1, h2, hb3.1, hb3.2, hb4.1, hb4.2, hp3, hp4]

set_option maxRecDepth 100000 in
/-- Witness for C3: sub-runs of formats SVG, PNG, COLR with palette index 0 and
COLR with palette index `0xFFFF`. -/
theorem color_runs_dispatch_witness :
    (DrawGlyphRun
        (sampleEnv S_OK
          [goodStep (sampleColorRun 1 0 8), goodStep (sampleColorRun 2 0 16),
           goodStep (sampleColorRun 3 0 4), goodStep (sampleColorRun 4 0xFFFF 4)] S_OK)
        (sampleContext 4) (F32.ofNat 0) (F32.ofNat 32) DWRITE_MEASURING_MODE.NATURAL
        sampleRun none).cmds.filter Cmd.isGlyphPaint
      = [Cmd.DrawSvgGlyphRun ⟨F32.ofNat 3, F32.ofNat 15⟩ sampleRun (Brush.ptr 10) none 0
          DWRITE_MEASURING_MODE.NATURAL,
         Cmd.DrawColorBitmapGlyphRun 16 ⟨F32.ofNat 3, F32.ofNat 15⟩ sampleRun
          DWRITE_MEASURING_MODE.NATURAL,
         Cmd.DrawGlyphRun ⟨F32.ofNat 3, F32.ofNat 15⟩ sampleRun (some 7) Brush.tempBrush
          DWRITE_MEASURING_MODE.NATURAL,
         Cmd.DrawGlyphRun ⟨F32.ofNat 3, F32.ofNat 15⟩ sampleRun (some 7) (Brush.ptr 10)
          DWRITE_MEASURING_MODE.NATURAL] :=
  (color_runs_dispatch
    (sampleEnv S_OK
      [goodStep (sampleColorRun 1 0 8), goodStep (sampleColorRun 2 0 16),
       goodStep (sampleColorRun 3 0 4), goodStep (sampleColorRun 4 0xFFFF 4)] S_OK)
    (sampleContext 4) (F32.ofNat 0) (F32.ofNat 32) DWRITE_MEASURING_MODE.NATURAL sampleRun none
    [goodStep (sampleColorRun 1 0 8), goodStep (sampleColorRun 2 0 16),
     goodStep (sampleColorRun 3 0 4), goodStep (sampleColorRun 4 0xFFFF 4)]
    (by decide) (by decide) (by decide)).2.2
    (sampleColorRun 1 0 8) (sampleColorRun 2 0 16) (sampleColorRun 3 0 4)
    (sampleColorRun 4 0xFFFF 4) rfl (by decide) (by decide) (by decide) (by decide)
    (by decide) (by decide)

theorem specLoopCmds_brush_exists {F : Type} (ctx : DrawingContext F)
    (mode : DWRITE_MEASURING_MODE) (runs : List (DWRITE_COLOR_GLYPH_RUN1 F)) :
    specLoopCmds ctx mode true runs
      = runs.flatMap (fun q =>
          if needsTempBrush q then [Cmd.SetColor q.runColor, specPaint ctx mode q]
          else [specPaint ctx mode q]) := by
  induction runs with
  | nil => simp [specLoopCmds]
  | cons colorRun rest ih =>
    simp only [specLoopCmds, Bool.true_or, ih, List.flatMap_cons, specRunCmds]
    simp

theorem specLoopCmds_first_need {F : Type} (ctx : DrawingContext F)
    (mode : DWRITE_MEASURING_MODE) (pre post : List (DWRITE_COLOR_GLYPH_RUN1 F))
    (r : DWRITE_COLOR_GLYPH_RUN1 F) (hpre : ∀ q ∈ pre, needsTempBrush q = false)
    (hr : needsTempBrush r = true) :
    specLoopCmds ctx mode false (pre ++ r :: post)
      = pre.map (specPaint ctx mode) ++
          Cmd.CreateSolidColorBrush r.runColor :: specPaint ctx mode r ::
            post.flatMap (fun q =>
              if needsTempBrush q then [Cmd.SetColor q.runColor, specPaint ctx mode q]
              else [specPaint ctx mode q]) := by
  rw [specLoopCmds_no_need ctx mode false pre (r :: post) hpre]
  simp [specLoopCmds, specRunCmds, hr, specLoopCmds_brush_exists]

/-- C4: when the call reaches the sub-run loop and every enumerator and brush
call succeeds, the call issues one `CreateSolidColorBrush` if some sub-run of
the outline branch has a palette index other than `0xFFFF` and none otherwise;
the creation is issued for the first such sub-run, directly before its draw,
and every later such sub-run issues one `SetColor` directly before its draw
and no creation.  Every call starts without a brush: in two successive calls
the creations add up, one per call that has such a sub-run. -/
theorem solid_brush_created_once {F : Type} [Add F] (env : Env F) (ctx : DrawingContext F)
    (x y : F) (mode : DWRITE_MEASURING_MODE) (glyphRun : DWRITE_GLYPH_RUN F)
    (desc : GlyphRunDescriptionPtr) (steps : Enumerator F)
    (hloop : ReachesLoop env ctx x y mode glyphRun desc steps) (hE : EnumSucceeds steps)
    (hC : CreateSucceeds env (steps.map (fun step => step.colorRun))) :
    ((DrawGlyphRun env ctx x y mode glyphRun desc).cmds.filter Cmd.isCreateBrush).length
      = (if (steps.map (fun step => step.colorRun)).any needsTempBrush then 1 else 0) ∧
    ((DrawGlyphRun env ctx x y mode glyphRun desc).cmds.filter Cmd.isSetColor).length
      = ((steps.map (fun step => step.colorRun)).filter needsTempBrush).length - 1 ∧
    (∀ (pre post : List (DWRITE_COLOR_GLYPH_RUN1 F)) (r : DWRITE_COLOR_GLYPH_RUN1 F),
      steps.map (fun step => step.colorRun) = pre ++ r :: post →
      (∀ q ∈ pre, needsTempBrush q = false) → needsTempBrush r = true →
      (DrawGlyphRun env ctx x y mode glyphRun desc).cmds
        = Cmd.FillRectangle (backgroundRect ctx x y glyphRun) (Brush.ptr ctx.backgroundBrush) ::
            (pre.map (specPaint ctx mode) ++
              Cmd.CreateSolidColorBrush r.runColor ::
              Cmd.DrawGlyphRun ⟨r.baselineOriginX, r.baselineOriginY⟩ r.glyphRun
                r.glyphRunDescription Brush.tempBrush mode ::
              post.flatMap (fun q =>
                if needsTempBrush q then
                  [Cmd.SetColor q.runColor,
                   Cmd.DrawGlyphRun ⟨q.baselineOriginX, q.baselineOriginY⟩ q.glyphRun
                    q.glyphRunDescription Brush.tempBrush mode]
                else [specPaint ctx mode q]))) ∧
    (∀ (env2 : Env F) (ctx2 : DrawingContext F) (x2 y2 : F) (mode2 : DWRITE_MEASURING_MODE)
      (glyphRun2 : DWRITE_GLYPH_RUN F) (desc2 : GlyphRunDescriptionPtr) (steps2 : Enumerator F),
      ReachesLoop env2 ctx2 x2 y2 mode2 glyphRun2 desc2 steps2 → EnumSucceeds steps2 →
      CreateSucceeds env2 (steps2.map (fun step => step.colorRun)) →
      (((DrawGlyphRun env ctx x y mode glyphRun desc).cmds ++
          (DrawGlyphRun env2 ctx2 x2 y2 mode2 glyphRun2 desc2).cmds).filter
            Cmd.isCreateBrush).length
        = (if (steps.map (fun step => step.colorRun)).any needsTempBrush then 1 else 0) +
          (if (steps2.map (fun step => step.colorRun)).any needsTempBrush then 1 else 0)) := by
  have hall := DrawGlyphRun_all_succeed env ctx x y mode glyphRun desc steps hloop hE hC
  have hcount : ∀ (e : Env F) (c : DrawingContext F) (a b : F) (m : DWRITE_MEASURING_MODE)
      (g : DWRITE_GLYPH_RUN F) (d : GlyphRunDescriptionPtr) (s : Enumerator F),
      ReachesLoop e c a b m g d s → EnumSucceeds s →
      CreateSucceeds e (s.map (fun step => step.colorRun)) →
      ((DrawGlyphRun e c a b m g d).cmds.filter Cmd.isCreateBrush).length
        = (if (s.map (fun step => step.colorRun)).any needsTempBrush then 1 else 0) := by
    intro e c a b m g d s h1 h2 h3
    rw [DrawGlyphRun_all_succeed e c a b m g d s h1 h2 h3]
    simp only [List.filter_cons]
    rw [← specLoopCmds_create_count c m]
    rfl
  refine ⟨hcount env ctx x y mode glyphRun desc steps hloop hE hC, ?_, ?_, ?_⟩
  · rw [hall]
    simp only [List.filter_cons]
    have h := specLoopCmds_setColor_count ctx mode false (steps.map (fun step => step.colorRun))
    simp only [Bool.false_eq_true, if_false] at h
    rw [← h]
    rfl
  · intro pre post r hruns hpre hr
    rw [hall, hruns, specLoopCmds_first_need ctx mode pre post r hpre hr]
    have hout : isBitmapRun r = false ∧ isSvgRun r = false ∧ r.paletteIndex ≠ 0xFFFF := by
      simpa [needsTempBrush, isOutlineRun, and_assoc] using hr
    have hpaint : specPaint ctx mode r
        = Cmd.DrawGlyphRun ⟨r.baselineOriginX, r.baselineOriginY⟩ r.glyphRun
            r.glyphRunDescription Brush.tempBrush mode := by
      simp [specPaint, hout.1, hout.2.1, hout.2.2]
    have hlater : ∀ q : DWRITE_COLOR_GLYPH_RUN1 F,
        (if needsTempBrush q then [Cmd.SetColor q.runColor, specPaint ctx mode q]
          else [specPaint ctx mode q])
        = (if needsTempBrush q then
            [Cmd.SetColor q.runColor,
             Cmd.DrawGlyphRun ⟨q.baselineOriginX, q.baselineOriginY⟩ q.glyphRun
              q.glyphRunDescription Brush.tempBrush mode]
          else [specPaint ctx mode q]) := by
      intro q
      by_cases hq : needsTempBrush q = true
      · have hqo : isBitmapRun q = false ∧ isSvgRun q = false ∧ q.paletteIndex ≠ 0xFFFF := by
          simpa [needsTempBrush, isOutlineRun, and_assoc] using hq
        simp [hq, specPaint, hqo.1, hqo.2.1, hqo.2.2]
      · simp [hq]
    rw [hpaint, funext hlater]
  · intro env2 ctx2 x2 y2 mode2 glyphRun2 desc2 steps2 h1 h2 h3
    rw [List.filter_append, List.length_append,
      hcount env ctx x y mode glyphRun desc steps hloop hE hC,
      hcount env2 ctx2 x2 y2 mode2 glyphRun2 desc2 steps2 h1 h2 h3]

set_option maxRecDepth 100000 in
/-- Witness for C4: sub-runs COLR with palette 0, SVG, COLR with palette 1 and
COLR with palette `0xFFFF` give one creation and one recolouring. -/
theorem solid_brush_created_once_witness :
    ((DrawGlyphRun
        (sampleEnv S_OK
          [goodStep (sampleColorRun 1 0 4), goodStep (sampleColorRun 2 0 8),
           goodStep (sampleColorRun 3 1 4), goodStep (sampleColorRun 4 0xFFFF 4)] S_OK)
        (sampleContext 4) (F32.ofNat 0) (F32.ofNat 32) DWRITE_MEASURING_MODE.NATURAL
        sampleRun none).cmds.filter Cmd.isCreateBrush).length = 1 ∧
    ((DrawGlyphRun
        (sampleEnv S_OK
          [goodStep (sampleColorRun 1 0 4), goodStep (sampleColorRun 2 0 8),
           goodStep (sampleColorRun 3 1 4), goodStep (sampleColorRun 4 0xFFFF 4)] S_OK)
        (sampleContext 4) (F32.ofNat 0) (F32.ofNat 32) DWRITE_MEASURING_MODE.NATURAL
        sampleRun none).cmds.filter Cmd.isSetColor).length = 1 :=
  ⟨(solid_brush_created_once
      (sampleEnv S_OK
        [goodStep (sampleColorRun 1 0 4), goodStep (sampleColorRun 2 0 8),
         goodStep (sampleColorRun 3 1 4), goodStep (sampleColorRun 4 0xFFFF 4)] S_OK)
      (sampleContext 4) (F32.ofNat 0) (F32.ofNat 32) DWRITE_MEASURING_MODE.NATURAL sampleRun none
      [goodStep (sampleColorRun 1 0 4), goodStep (sampleColorRun 2 0 8),
       goodStep (sampleColorRun 3 1 4), goodStep (sampleColorRun 4 0xFFFF 4)]
      (by decide) (by decide) (by decide)).1.trans (by decide),
   (solid_brush_created_once
      (sampleEnv S_OK
        [goodStep (sampleColorRun 1 0 4), goodStep (sampleColorRun 2 0 8),
         goodStep (sampleColorRun 3 1 4), goodStep (sampleColorRun 4 0xFFFF 4)] S_OK)
      (sampleContext 4) (F32.ofNat 0) (F32.ofNat 32) DWRITE_MEASURING_MODE.NATURAL sampleRun none
      [goodStep (sampleColorRun 1 0 4), goodStep (sampleColorRun 2 0 8),
       goodStep (sampleColorRun 3 1 4), goodStep (sampleColorRun 4 0xFFFF 4)]
      (by decide) (by decide) (by decide)).2.1.trans (by decide)⟩

theorem drawColorRun_outline {F : Type} (env : Env F) (ctx : DrawingContext F)
    (mode : DWRITE_MEASURING_MODE) (tempBrush : Option (D2D1_COLOR_F F))
    (r : DWRITE_COLOR_GLYPH_RUN1 F) (hout : isOutlineRun r = true) :
    drawColorRun env ctx mode tempBrush r
      = if r.paletteIndex = 0xFFFF then
          ([Cmd.DrawGlyphRun ⟨r.baselineOriginX, r.baselineOriginY⟩ r.glyphRun
              r.glyphRunDescription (Brush.ptr ctx.foregroundBrush) mode], Except.ok tempBrush)
        else
          match tempBrush with
          | none =>
            if FAILED (env.CreateSolidColorBrush r.runColor) then
              ([Cmd.CreateSolidColorBrush r.runColor],
                Except.error (env.CreateSolidColorBrush r.runColor))
            else
              ([Cmd.CreateSolidColorBrush r.runColor,
                Cmd.DrawGlyphRun ⟨r.baselineOriginX, r.baselineOriginY⟩ r.glyphRun
                  r.glyphRunDescription Brush.tempBrush mode], Except.ok (some r.runColor))
          | some _ =>
            ([Cmd.SetColor r.runColor,
              Cmd.DrawGlyphRun ⟨r.baselineOriginX, r.baselineOriginY⟩ r.glyphRun
                r.glyphRunDescription Brush.tempBrush mode], Except.ok (some r.runColor)) := by
  have hb : isBitmapRun r = false ∧ isSvgRun r = false := by
    simpa [isOutlineRun] using hout
  have h1 : ¬ (r.glyphImageFormat = DWRITE_GLYPH_IMAGE_FORMATS_PNG ∨
      r.glyphImageFormat = DWRITE_GLYPH_IMAGE_FORMATS_JPEG ∨
      r.glyphImageFormat = DWRITE_GLYPH_IMAGE_FORMATS_TIFF ∨
      r.glyphImageFormat = DWRITE_GLYPH_IMAGE_FORMATS_PREMULTIPLIED_B8G8R8A8) := by
    have := hb.1
    simpa [isBitmapRun, or_assoc, and_assoc] using this
  have h2 : ¬ r.glyphImageFormat = DWRITE_GLYPH_IMAGE_FORMATS_SVG := by
    have := hb.2
    simpa [isSvgRun] using this
  simp only [drawColorRun, if_neg h1, if_neg h2]

/-- C5: for a sub-run of the outline branch, whatever its run colour and
whatever the state of the brush cache, palette index `0xFFFF` makes the loop
body issue exactly one command, the plain draw with the foreground brush,
leaving the cache untouched; any other palette index makes every plain draw the
body issues use the solid-colour brush, never the foreground brush, and, when
the brush exists or its creation succeeds, the body issues exactly a recolouring
or creation followed by that draw.  In the loop a successful round issues the
body's commands first. -/
theorem sentinel_uses_foreground {F : Type} (env : Env F) (ctx : DrawingContext F)
    (mode : DWRITE_MEASURING_MODE) (tempBrush : Option (D2D1_COLOR_F F))
    (r : DWRITE_COLOR_GLYPH_RUN1 F) (hout : isOutlineRun r = true) :
    (r.paletteIndex = 0xFFFF →
      drawColorRun env ctx mode tempBrush r
        = ([Cmd.DrawGlyphRun ⟨r.baselineOriginX, r.baselineOriginY⟩ r.glyphRun
            r.glyphRunDescription (Brush.ptr ctx.foregroundBrush) mode],
            Except.ok tempBrush)) ∧
    (r.paletteIndex ≠ 0xFFFF →
      (∀ origin glyphs description brush measuring,
        Cmd.DrawGlyphRun origin glyphs description brush measuring
            ∈ (drawColorRun env ctx mode tempBrush r).1 →
          brush = Brush.tempBrush ∧ brush ≠ Brush.ptr ctx.foregroundBrush) ∧
      (tempBrush.isSome = true ∨ FAILED (env.CreateSolidColorBrush r.runColor) = false →
        (drawColorRun env ctx mode tempBrush r).1
          = [if tempBrush.isSome then Cmd.SetColor r.runColor
              else Cmd.CreateSolidColorBrush r.runColor,
             Cmd.DrawGlyphRun ⟨r.baselineOriginX, r.baselineOriginY⟩ r.glyphRun
              r.glyphRunDescription Brush.tempBrush mode])) ∧
    (∀ (step : EnumStep F) (rest : Enumerator F), step.colorRun = r →
      FAILED step.moveNext = false → step.haveRun = true →
      FAILED step.getCurrentRun = false →
      ∃ tail, (drawColorRuns env ctx mode (step :: rest) tempBrush).cmds
        = (drawColorRun env ctx mode tempBrush r).1 ++ tail) := by
  have hbody := drawColorRun_outline env ctx mode tempBrush r hout
  refine ⟨fun hp => ?_, fun hp => ⟨?_, ?_⟩, ?_⟩
  · rw [hbody, if_pos hp]
  · intro origin glyphs description brush measuring hmem
    rw [hbody, if_neg hp] at hmem
    cases tempBrush with
    | none =>
      by_cases hc : FAILED (env.CreateSolidColorBrush r.runColor) = true
      · simp [hc] at hmem
      · simp [hc] at hmem
        rw [hmem.2.2.2.1]
        exact ⟨rfl, by simp⟩
    | some color =>
      simp at hmem
      rw [hmem.2.2.2.1]
      exact ⟨rfl, by simp⟩
  · intro hok
    rw [hbody, if_neg hp]
    cases tempBrush with
    | none =>
      have hc : FAILED (env.CreateSolidColorBrush r.runColor) = false := by
        simpa using hok
      simp [hc]
    | some color => simp
  · intro step rest hstep hm hh hg
    subst hstep
    cases hres : drawColorRun env ctx mode tempBrush step.colorRun with
    | mk cmds outcome =>
      cases outcome with
      | error hr =>
        rw [drawColorRuns_cons_error env ctx mode step rest tempBrush cmds hr hm hh hg hres]
        exact ⟨[], by simp⟩
      | ok tempBrush1 =>
        rw [drawColorRuns_cons env ctx mode step rest tempBrush tempBrush1 cmds hm hh hg hres]
        exact ⟨_, rfl⟩

set_option maxRecDepth 100000 in
/-- Witness for C5: a COLR sub-run with palette index `0xFFFF`, met while the
brush cache holds a colour. -/
theorem sentinel_uses_foreground_witness :
    drawColorRun (sampleEnv S_OK [] E_FAIL) (sampleContext 4) DWRITE_MEASURING_MODE.NATURAL
        (some (sampleColorRun 9 0 4).runColor) (sampleColorRun 5 0xFFFF 4)
      = ([Cmd.DrawGlyphRun ⟨F32.ofNat 3, F32.ofNat 15⟩ sampleRun (some 7) (Brush.ptr 10)
            DWRITE_MEASURING_MODE.NATURAL],
          Except.ok (some (sampleColorRun 9 0 4).runColor)) :=
  (sentinel_uses_foreground (sampleEnv S_OK [] E_FAIL) (sampleContext 4)
    DWRITE_MEASURING_MODE.NATURAL (some (sampleColorRun 9 0 4).runColor)
    (sampleColorRun 5 0xFFFF 4) (by decide)).1 rfl

theorem paints_of_prefix {F : Type} (ctx : DrawingContext F) (mode : DWRITE_MEASURING_MODE)
    (background : Cmd F) (hbg : background.isGlyphPaint = false)
    (runs : List (DWRITE_COLOR_GLYPH_RUN1 F)) (tail : List (Cmd F))
    (htail : tail.filter Cmd.isGlyphPaint = []) :
    (background :: (specLoopCmds ctx mode false runs ++ tail)).filter Cmd.isGlyphPaint
      = runs.map (specPaint ctx mode) := by
  simp [List.filter_cons, hbg, List.filter_append, specLoopCmds_paints, htail]

/-- C6: `DrawGlyphRun` is fail-fast once the capability queries have succeeded
and the colour-font flag is set.  A failing `TranslateColorGlyphRun` status
other than `DWRITE_E_NOCOLOR` is returned with only the background fill issued.
When the enumerator rounds before sub-run `k` succeed and `MoveNext` fails at
`k`, or `GetCurrentRun` fails at `k`, or sub-run `k` is the first that needs the
solid-colour brush and its creation fails, `DrawGlyphRun` returns exactly that
status and its glyph-paint commands are exactly those of the sub-runs before
`k`: none for sub-run `k` or a later one. -/
theorem fail_fast {F : Type} [Add F] (env : Env F) (ctx : DrawingContext F)
    (x y : F) (mode : DWRITE_MEASURING_MODE) (glyphRun : DWRITE_GLYPH_RUN F)
    (desc : GlyphRunDescriptionPtr) (hRT : FAILED env.renderTargetQueryInterface = false)
    (hflag : WI_IsFlagSet ctx.options D2D1_DRAW_TEXT_OPTIONS_ENABLE_COLOR_FONT = true)
    (hF : FAILED env.dwriteFactoryQueryInterface = false) :
    (FAILED (env.TranslateColorGlyphRun ⟨x, y + ctx.spacing.baseline⟩ glyphRun desc
        supportedFormats mode).1 = true →
      (env.TranslateColorGlyphRun ⟨x, y + ctx.spacing.baseline⟩ glyphRun desc
        supportedFormats mode).1 ≠ DWRITE_E_NOCOLOR →
      DrawGlyphRun env ctx x y mode glyphRun desc
        = ⟨(env.TranslateColorGlyphRun ⟨x, y + ctx.spacing.baseline⟩ glyphRun desc
            supportedFormats mode).1,
            [Cmd.FillRectangle (backgroundRect ctx x y glyphRun)
              (Brush.ptr ctx.backgroundBrush)]⟩) ∧
    (∀ (pre post : Enumerator F) (bad : EnumStep F),
      FAILED (env.TranslateColorGlyphRun ⟨x, y + ctx.spacing.baseline⟩ glyphRun desc
        supportedFormats mode).1 = false →
      (env.TranslateColorGlyphRun ⟨x, y + ctx.spacing.baseline⟩ glyphRun desc
        supportedFormats mode).2 = pre ++ bad :: post →
      EnumSucceeds pre → CreateSucceeds env (pre.map (fun step => step.colorRun)) →
      (FAILED bad.moveNext = true →
        (DrawGlyphRun env ctx x y mode glyphRun desc).hr = bad.moveNext ∧
        (DrawGlyphRun env ctx x y mode glyphRun desc).cmds.filter Cmd.isGlyphPaint
          = (pre.map (fun step => step.colorRun)).map (specPaint ctx mode)) ∧
      (FAILED bad.moveNext = false → bad.haveRun = true →
        FAILED bad.getCurrentRun = true →
        (DrawGlyphRun env ctx x y mode glyphRun desc).hr = bad.getCurrentRun ∧
        (DrawGlyphRun env ctx x y mode glyphRun desc).cmds.filter Cmd.isGlyphPaint
          = (pre.map (fun step => step.colorRun)).map (specPaint ctx mode)) ∧
      (FAILED bad.moveNext = false → bad.haveRun = true →
        FAILED bad.getCurrentRun = false →
        needsTempBrush bad.colorRun = true →
        (∀ q ∈ pre, needsTempBrush q.colorRun = false) →
        FAILED (env.CreateSolidColorBrush bad.colorRun.runColor) = true →
        (DrawGlyphRun env ctx x y mode glyphRun desc).hr
          = env.CreateSolidColorBrush bad.colorRun.runColor ∧
        (DrawGlyphRun env ctx x y mode glyphRun desc).cmds.filter Cmd.isGlyphPaint
          = (pre.map (fun step => step.colorRun)).map (specPaint ctx mode))) := by
  refine ⟨fun hT2 hT => DrawGlyphRun_translate_failed env ctx x y mode glyphRun desc hRT hflag
    hF hT hT2, ?_⟩
  intro pre post bad hT hsteps hE hC
  have hrun := DrawGlyphRun_loop env ctx x y mode glyphRun desc (pre ++ bad :: post)
    ⟨hRT, hflag, hF, hT, hsteps⟩
  rw [drawColorRuns_append env ctx mode pre (bad :: post) none hE (fun _ => hC)] at hrun
  have hbg : (Cmd.FillRectangle (backgroundRect ctx x y glyphRun)
      (Brush.ptr ctx.backgroundBrush)).isGlyphPaint = false := rfl
  refine ⟨fun hm => ?_, fun hm hh hg => ?_, fun hm hh hg hneeds hpre hcreate => ?_⟩
  · have hbad : drawColorRuns env ctx mode (bad :: post)
        (brushAfter none (pre.map (fun step => step.colorRun))) = ⟨bad.moveNext, []⟩ := by
      simp [drawColorRuns, hm]
    rw [hbad] at hrun
    rw [hrun]
    exact ⟨rfl, paints_of_prefix ctx mode _ hbg _ [] rfl⟩
  · have hbad : drawColorRuns env ctx mode (bad :: post)
        (brushAfter none (pre.map (fun step => step.colorRun))) = ⟨bad.getCurrentRun, []⟩ := by
      simp [drawColorRuns, hm, hh, hg]
    rw [hbad] at hrun
    rw [hrun]
    exact ⟨rfl, paints_of_prefix ctx mode _ hbg _ [] rfl⟩
  · have hnone : brushAfter none (pre.map (fun step => step.colorRun)) = none := by
      apply brushAfter_no_need
      intro q hq
      obtain ⟨step, hstep, rfl⟩ := List.mem_map.mp hq
      exact hpre step hstep
    have hout : isOutlineRun bad.colorRun = true ∧ bad.colorRun.paletteIndex ≠ 0xFFFF := by
      simpa [needsTempBrush] using hneeds
    have hbody : drawColorRun env ctx mode none bad.colorRun
        = ([Cmd.CreateSolidColorBrush bad.colorRun.runColor],
            Except.error (env.CreateSolidColorBrush bad.colorRun.runColor)) := by
      rw [drawColorRun_outline env ctx mode none bad.colorRun hout.1, if_neg hout.2]
      simp [hcreate]
    rw [hnone, drawColorRuns_cons_error env ctx mode bad post none _ _ hm hh hg hbody] at hrun
    rw [hrun]
    exact ⟨rfl, paints_of_prefix ctx mode _ hbg _ _ rfl⟩

set_option maxRecDepth 100000 in
/-- Witness for C6: brush creation fails with `E_FAIL` at the third sub-run,
after an SVG and a PNG sub-run were painted. -/
theorem fail_fast_witness :
    (DrawGlyphRun
        (sampleEnv S_OK
          [goodStep (sampleColorRun 1 0 8), goodStep (sampleColorRun 2 0 16),
           goodStep (sampleColorRun 3 0 4), goodStep (sampleColorRun 4 0xFFFF 4)] E_FAIL)
        (sampleContext 4) (F32.ofNat 0) (F32.ofNat 32) DWRITE_MEASURING_MODE.NATURAL
        sampleRun none).hr = E_FAIL ∧
    (DrawGlyphRun
        (sampleEnv S_OK
          [goodStep (sampleColorRun 1 0 8), goodStep (sampleColorRun 2 0 16),
           goodStep (sampleColorRun 3 0 4), goodStep (sampleColorRun 4 0xFFFF 4)] E_FAIL)
        (sampleContext 4) (F32.ofNat 0) (F32.ofNat 32) DWRITE_MEASURING_MODE.NATURAL
        sampleRun none).cmds.filter Cmd.isGlyphPaint
      = [Cmd.DrawSvgGlyphRun ⟨F32.ofNat 3, F32.ofNat 15⟩ sampleRun (Brush.ptr 10) none 0
          DWRITE_MEASURING_MODE.NATURAL,
         Cmd.DrawColorBitmapGlyphRun 16 ⟨F32.ofNat 3, F32.ofNat 15⟩ sampleRun
          DWRITE_MEASURING_MODE.NATURAL] :=
  ((fail_fast
    (sampleEnv S_OK
      [goodStep (sampleColorRun 1 0 8), goodStep (sampleColorRun 2 0 16),
       goodStep (sampleColorRun 3 0 4), goodStep (sampleColorRun 4 0xFFFF 4)] E_FAIL)
    (sampleContext 4) (F32.ofNat 0) (F32.ofNat 32) DWRITE_MEASURING_MODE.NATURAL sampleRun none
    (by decide) (by decide) (by decide)).2
    [goodStep (sampleColorRun 1 0 8), goodStep (sampleColorRun 2 0 16)]
    [goodStep (sampleColorRun 4 0xFFFF 4)] (goodStep (sampleColorRun 3 0 4))
    (by decide) rfl (by decide) (by decide)).2.2
    (by decide) (by decide) (by decide) (by decide) (by decide) (by decide)

/-! ## Pixel snapping -/

set_option maxRecDepth 100000 in
theorem f32_144_div_96 :
    (F32.ofNat 144 / ((USER_DEFAULT_SCREEN_DPI : Nat) : F32) : F32)
      = F32.finite false (3 * 2 ^ 148) ∧
    F32.ofNat 3 / F32.ofNat 2 = F32.finite false (3 * 2 ^ 148) ∧
    F32.finite false (3 * 2 ^ 148) + F32.finite false (3 * 2 ^ 148) = F32.ofNat 3 := by
  decide

/-- C11: `GetPixelsPerDip` returns `S_OK` and writes the `FLOAT` quotient of the
horizontal DPI by 96, whatever the vertical DPI; in binary32, for a horizontal
DPI of 144 the value written is 1.5, the number `3 * 2^148 * 2^(-149)`, which is
`3 / 2` and whose double is 3. -/
theorem pixels_per_dip {F : Type} [Div F] [NatCast F] (renderTarget : RenderTargetDpi F) :
    GetPixelsPerDip renderTarget = (S_OK, renderTarget.dpiX / ((96 : Nat) : F)) ∧
    (∀ dpiY : F,
      GetPixelsPerDip { renderTarget with dpiY := dpiY } = GetPixelsPerDip renderTarget) ∧
    (∀ dpiY32 : F32,
      GetPixelsPerDip (⟨F32.ofNat 144, dpiY32⟩ : RenderTargetDpi F32)
        = (S_OK, F32.finite false (3 * 2 ^ 148))) ∧
    F32.ofNat 3 / F32.ofNat 2 = F32.finite false (3 * 2 ^ 148) ∧
    F32.finite false (3 * 2 ^ 148) + F32.finite false (3 * 2 ^ 148) = F32.ofNat 3 := by
  refine ⟨rfl, fun _ => rfl, fun dpiY32 => ?_, f32_144_div_96.2.1, f32_144_div_96.2.2⟩
  simp only [GetPixelsPerDip]
  rw [f32_144_div_96.1]

/-! ## Glyph runs: the colour of the solid-colour brush -/

theorem brushColorAfter_append {F : Type} (brush : Option (D2D1_COLOR_F F))
    (first second : List (Cmd F)) :
    brushColorAfter brush (first ++ second)
      = brushColorAfter (brushColorAfter brush first) second := by
  induction first generalizing brush with
  | nil => rfl
  | cons c rest ih =>
    cases c <;> simp [brushColorAfter, ih]

theorem brushColorAfter_paint {F : Type} (brush : Option (D2D1_COLOR_F F))
    (ctx : DrawingContext F) (mode : DWRITE_MEASURING_MODE)
    (colorRun : DWRITE_COLOR_GLYPH_RUN1 F) (rest : List (Cmd F)) :
    brushColorAfter brush (specPaint ctx mode colorRun :: rest)
      = brushColorAfter brush rest := by
  unfold specPaint
  split
  · rfl
  · split <;> rfl

theorem brushColorAfter_specLoopCmds {F : Type} (ctx : DrawingContext F)
    (mode : DWRITE_MEASURING_MODE) (brush : Option (D2D1_COLOR_F F))
    (runs : List (DWRITE_COLOR_GLYPH_RUN1 F)) :
    brushColorAfter brush (specLoopCmds ctx mode brush.isSome runs) = brushAfter brush runs := by
  induction runs generalizing brush with
  | nil => rfl
  | cons colorRun rest ih =>
    simp only [specLoopCmds, brushColorAfter_append, brushAfter, specRunCmds]
    by_cases hn : needsTempBrush colorRun = true
    · cases brush with
      | none =>
        simp only [hn, if_true, Option.isSome_none, Bool.false_eq_true, if_false,
          brushColorAfter, brushColorAfter_paint, Bool.false_or]
        exact ih (some colorRun.runColor)
      | some color =>
        simp only [hn, if_true, Option.isSome_some, brushColorAfter, brushColorAfter_paint,
          Option.map_some', Bool.true_or]
        exact ih (some colorRun.runColor)
    · have hn1 : needsTempBrush colorRun = false := by simpa using hn
      simp only [hn1, Bool.false_eq_true, if_false, brushColorAfter_paint, brushColorAfter,
        Bool.or_false]
      exact ih brush

theorem brushAfter_isSome {F : Type} (brush : Option (D2D1_COLOR_F F))
    (runs : List (DWRITE_COLOR_GLYPH_RUN1 F)) :
    (brushAfter brush runs).isSome = (brush.isSome || runs.any needsTempBrush) := by
  induction runs generalizing brush with
  | nil => simp [brushAfter]
  | cons colorRun rest ih =>
    simp only [brushAfter, ih, List.any_cons]
    cases hn : needsTempBrush colorRun <;> simp

theorem specLoopCmds_append {F : Type} (ctx : DrawingContext F)
    (mode : DWRITE_MEASURING_MODE) (brushExists : Bool)
    (pre rest : List (DWRITE_COLOR_GLYPH_RUN1 F)) :
    specLoopCmds ctx mode brushExists (pre ++ rest)
      = specLoopCmds ctx mode brushExists pre ++
          specLoopCmds ctx mode (brushExists || pre.any needsTempBrush) rest := by
  induction pre generalizing brushExists with
  | nil => simp [specLoopCmds]
  | cons colorRun pre ih =>
    simp [specLoopCmds, ih, Bool.or_assoc]

/-- C12: when the call reaches the sub-run loop and every enumerator and brush
call succeeds, every sub-run `r` of the outline branch with a palette index
other than `0xFFFF` is drawn while the solid-colour brush has the colour
`r.runColor`: the commands split into those issued before the plain draw of
`r`, that draw (with the solid-colour brush) and the rest, the paints issued
before are exactly those of the sub-runs preceding `r`, whatever their kind, and
replaying the brush creations and recolourings issued before the draw leaves
the brush with the run colour of `r`. -/
theorem brush_never_stale {F : Type} [Add F] (env : Env F) (ctx : DrawingContext F)
    (x y : F) (mode : DWRITE_MEASURING_MODE) (glyphRun : DWRITE_GLYPH_RUN F)
    (desc : GlyphRunDescriptionPtr) (steps : Enumerator F)
    (pre post : List (DWRITE_COLOR_GLYPH_RUN1 F)) (r : DWRITE_COLOR_GLYPH_RUN1 F)
    (hloop : ReachesLoop env ctx x y mode glyphRun desc steps) (hE : EnumSucceeds steps)
    (hC : CreateSucceeds env (steps.map (fun step => step.colorRun)))
    (hruns : steps.map (fun step => step.colorRun) = pre ++ r :: post)
    (hr : needsTempBrush r = true) :
    ∃ before after : List (Cmd F),
      (DrawGlyphRun env ctx x y mode glyphRun desc).cmds
        = before ++
          Cmd.DrawGlyphRun ⟨r.baselineOriginX, r.baselineOriginY⟩ r.glyphRun
            r.glyphRunDescription Brush.tempBrush mode :: after ∧
      before.filter Cmd.isGlyphPaint = pre.map (specPaint ctx mode) ∧
      brushColorAfter none before = some r.runColor := by
  have hall := DrawGlyphRun_all_succeed env ctx x y mode glyphRun desc steps hloop hE hC
  have hout : isBitmapRun r = false ∧ isSvgRun r = false ∧ r.paletteIndex ≠ 0xFFFF := by
    simpa [needsTempBrush, isOutlineRun, and_assoc] using hr
  have hpaint : specPaint ctx mode r
      = Cmd.DrawGlyphRun ⟨r.baselineOriginX, r.baselineOriginY⟩ r.glyphRun
          r.glyphRunDescription Brush.tempBrush mode := by
    simp [specPaint, hout.1, hout.2.1, hout.2.2]
  have hsplit : specLoopCmds ctx mode false (pre ++ r :: post)
      = (specLoopCmds ctx mode false pre ++
          [if pre.any needsTempBrush then Cmd.SetColor r.runColor
            else Cmd.CreateSolidColorBrush r.runColor]) ++
        specPaint ctx mode r :: specLoopCmds ctx mode true post := by
    rw [specLoopCmds_append]
    simp [specLoopCmds, specRunCmds, hr]
  refine ⟨Cmd.FillRectangle (backgroundRect ctx x y glyphRun) (Brush.ptr ctx.backgroundBrush) ::
      (specLoopCmds ctx mode false pre ++
        [if pre.any needsTempBrush then Cmd.SetColor r.runColor
          else Cmd.CreateSolidColorBrush r.runColor]),
    specLoopCmds ctx mode true post, ?_, ?_, ?_⟩
  · rw [hall, hruns, hsplit, hpaint]
    rfl
  · have hbrush : [if pre.any needsTempBrush then Cmd.SetColor r.runColor
          else Cmd.CreateSolidColorBrush r.runColor].filter Cmd.isGlyphPaint = [] := by
      cases pre.any needsTempBrush <;> simp [List.filter_cons, brush_cmds_kinds]
    rw [List.filter_cons, List.filter_append, hbrush, specLoopCmds_paints]
    simp [Cmd.isGlyphPaint]
  · have hfill : ∀ (rect : D2D1_RECT_F F) (brush : Brush) (rest : List (Cmd F)),
        brushColorAfter none (Cmd.FillRectangle rect brush :: rest)
          = brushColorAfter none rest := fun _ _ _ => rfl
    have hpre := brushColorAfter_specLoopCmds ctx mode none pre
    have hsome := brushAfter_isSome none pre
    simp only [Option.isSome_none, Bool.false_or] at hpre hsome
    rw [hfill, brushColorAfter_append, hpre]
    cases hany : pre.any needsTempBrush with
    | false => simp [brushColorAfter]
    | true =>
      rw [hany] at hsome
      obtain ⟨color, hcolor⟩ := Option.isSome_iff_exists.mp hsome
      simp [hcolor, brushColorAfter]

set_option maxRecDepth 100000 in
/-- Witness for C12: the third of the sub-runs COLR with palette 0, SVG, COLR
with palette 1, COLR with palette `0xFFFF`, drawn after the brush was created
for the first. -/
theorem brush_never_stale_witness :
    ∃ before after : List (Cmd F32),
      (DrawGlyphRun
          (sampleEnv S_OK
            [goodStep (sampleColorRun 1 0 4), goodStep (sampleColorRun 2 0 8),
             goodStep (sampleColorRun 3 1 4), goodStep (sampleColorRun 4 0xFFFF 4)] S_OK)
          (sampleContext 4) (F32.ofNat 0) (F32.ofNat 32) DWRITE_MEASURING_MODE.NATURAL
          sampleRun none).cmds
        = before ++
          Cmd.DrawGlyphRun
            ⟨(sampleColorRun 3 1 4).baselineOriginX, (sampleColorRun 3 1 4).baselineOriginY⟩
            (sampleColorRun 3 1 4).glyphRun (sampleColorRun 3 1 4).glyphRunDescription
            Brush.tempBrush DWRITE_MEASURING_MODE.NATURAL :: after ∧
      before.filter Cmd.isGlyphPaint
        = [sampleColorRun 1 0 4, sampleColorRun 2 0 8].map
            (specPaint (sampleContext 4) DWRITE_MEASURING_MODE.NATURAL) ∧
      brushColorAfter none before = some (sampleColorRun 3 1 4).runColor :=
  brush_never_stale
    (sampleEnv S_OK
      [goodStep (sampleColorRun 1 0 4), goodStep (sampleColorRun 2 0 8),
       goodStep (sampleColorRun 3 1 4), goodStep (sampleColorRun 4 0xFFFF 4)] S_OK)
    (sampleContext 4) (F32.ofNat 0) (F32.ofNat 32) DWRITE_MEASURING_MODE.NATURAL sampleRun none
    [goodStep (sampleColorRun 1 0 4), goodStep (sampleColorRun 2 0 8),
     goodStep (sampleColorRun 3 1 4), goodStep (sampleColorRun 4 0xFFFF 4)]
    [sampleColorRun 1 0 4, sampleColorRun 2 0 8] [sampleColorRun 4 0xFFFF 4]
    (sampleColorRun 3 1 4) (by decide) (by decide) (by decide) (by decide) (by decide)

end CustomTextRenderer

end Terminal
